import Mathlib

/-!
Verification development for the 8x8 Mines game server
(`server.py`, `common.py`).

The server logic is shallowly embedded as executable Lean functions:

* `Common.recv_msg` embeds the line-reading / JSON-decoding receive helper
  of `common.py` (the byte stream read by repeated `sock.recv(1)` calls is
  modelled as a list of read results, Python exceptions as `Except`).
* `MatchMaker.join` and `handle_client` embed the matchmaking queue of
  `server.py`.
* `turnStep` embeds one iteration of the `while self.running` loop of
  `GameSession.run`; `runTurns` / `sessionRun` iterate it over a list of
  per-iteration environment inputs (wall-clock times of socket readiness,
  received client messages, and which `send` calls fail).

Wall-clock time is modelled in whole seconds as `Nat`; the 10-second move
window of a turn that starts at time `now` admits exactly the wait events
whose timestamp is `< now + 10`, mirroring
`while time.time() - start_time < 10.0` in `GameSession.run`.
-/

namespace Mines

/-- A board coordinate, the Python tuple `(r, c)` built from
`int(req.get('r'))`, `int(req.get('c'))` (unbounded integers: the server
performs no range check on them). -/
abbrev Coord : Type := Int × Int

/-- A client-to-server message as seen by `GameSession.run` after JSON
decoding: `leave`, `select{r,c}` (with integer fields), or any other
message type (`other t` stands for a decoded message whose `type` field is
the string `t`, neither `leave` nor `select`). -/
inductive ClientMsg : Type where
  | leave : ClientMsg
  | select (r c : Int) : ClientMsg
  | other (t : String) : ClientMsg
deriving DecidableEq

/-- A server-to-client message, one constructor per `type` tag sent by
`server.py`.  `turn` carries the player, the `'time':10` field, the
`server_time` stamp and the board view (`_board_view`: selected cells and
scores); `info` carries the player index interpolated into
`'player %d timeout, turn passed'`; `endMsg` carries winner (player index
or `-1` for a tie), reason, scores, the selection map and the hit-mines
list (the `loser` field is `None` in every call and is omitted). -/
inductive ServerMsg : Type where
  | start (you : Nat) (mode : String) : ServerMsg
  | turn (player : Nat) (timeLimit : Nat) (serverTime : Nat)
      (selected : List (Coord × Nat)) (scores : List Int) : ServerMsg
  | update (selected : List (Coord × Nat)) (scores : List Int) : ServerMsg
  | mineHit (r c : Int) : ServerMsg
  | info (player : Nat) : ServerMsg
  | error (msg : String) : ServerMsg
  | endMsg (winner : Int) (reason : String) (scores : List Int)
      (selected : List (Coord × Nat)) (mines : List Coord) : ServerMsg
deriving DecidableEq

/-- One attempted `send_msg` call: recipient connection index and payload.
Failed sends are still recorded (the attempt happened); control flow reacts
to the failure as the code does. -/
abbrev Ev : Type := Nat × ServerMsg

/-- The immutable per-session data of `GameSession.__init__`: the mode tag
and the mine set (a duplicate-free list standing for the Python `set`;
its generation by `random.randrange` is outside the model, theorems
quantify over it). -/
structure Cfg : Type where
  mode : String
  mines : List Coord
deriving DecidableEq

/-- The mutable state of a `GameSession`: `selected` is the
insertion-ordered dict `(r,c) -> player`, `minesHit` the set
`self.mines_hit` in insertion order, `scores` the list `self.scores`,
`turn` the field `self.turn`. -/
structure GState : Type where
  selected : List (Coord × Nat)
  minesHit : List Coord
  scores : List Int
  turn : Nat
deriving DecidableEq

/-- Initial session state set up by `GameSession.__init__`. -/
def initState : GState := { selected := [], minesHit := [], scores := [0, 0], turn := 0 }

/-- Result of one `recv_msg` call observed inside the wait loop of
`GameSession.run`: `nores` is a `None` result (sub-second timeout, garbage
line, or end-of-stream), `got m` a decoded message, `raised` an exception
propagating out of `recv_msg` (e.g. `ConnectionResetError`, which
`recv_msg` does not catch). -/
inductive RecvRes : Type where
  | nores : RecvRes
  | got (m : ClientMsg) : RecvRes
  | raised : RecvRes
deriving DecidableEq

/-- One readiness event inside the `select.select` wait loop: which socket
became readable and what the subsequent `recv_msg` returned. -/
inductive WaitKind : Type where
  | curRead (r : RecvRes) : WaitKind
  | otherRead (r : RecvRes) : WaitKind
deriving DecidableEq

/-- Outcome of the 10-second wait loop of one turn. -/
inductive WaitRes : Type where
  | timeout : WaitRes
  | leaveCur : WaitRes
  | leaveOther : WaitRes
  | req (m : ClientMsg) : WaitRes
  | exc : WaitRes
deriving DecidableEq

/-- The wait loop `while time.time() - start_time < 10.0 and req is None`
of `GameSession.run`: processes timestamped readiness events in order.  An
event at a time `≥ deadline` is not read this turn (the loop condition
fails first); an exhausted event list means the window elapsed.  A `leave`
decoded from either socket ends the wait at once; any other decoded
message from the current socket becomes `req`; a `None` result from either
socket leaves `req` unset and the loop continues with the remaining
budget.  Returns the wait result and the clock at which the loop exited
(`deadline` on timeout). -/
def waitLoop (deadline : Nat) : List (Nat × WaitKind) → WaitRes × Nat
  | [] => (.timeout, deadline)
  | (t, k) :: rest =>
    if deadline ≤ t then (.timeout, deadline)
    else
      match k with
      | .curRead .raised => (.exc, t)
      | .curRead (.got .leave) => (.leaveCur, t)
      | .curRead (.got m) => (.req m, t)
      | .curRead .nores => waitLoop deadline rest
      | .otherRead .raised => (.exc, t)
      | .otherRead (.got .leave) => (.leaveOther, t)
      | .otherRead _ => waitLoop deadline rest

/-- Environment input for one iteration of the `while self.running` loop:
which of the two `turn`-broadcast sends fail (index `i` looked up with
default `false`), the timestamped wait events, whether the un-guarded
`error` send to `self.socks[1]` fails (raising), which `info` sends fail,
and which un-guarded `update` sends fail (raising). -/
structure TurnInput : Type where
  turnFail : Bool × Bool
  waitEvents : List (Nat × WaitKind)
  errFail : Bool
  infoFail : Bool × Bool
  updFail : Bool × Bool

/-- Result of one iteration of the session loop: continue with a new state
(back to the top of `while self.running`), the match ended via `_send_end`
(running flag cleared, both sockets closed), or the thread died on an
unhandled exception (no end message, sockets left open). -/
inductive StepRes : Type where
  | cont (st : GState) (tr : List Ev) : StepRes
  | ended (tr : List Ev) : StepRes
  | crashed (tr : List Ev) : StepRes
deriving DecidableEq

/-- Winner computation used for the `all_mines_hit` and `board_full`
endings: `0` / `1` for a strictly higher score, `-1` for a tie. -/
def scoreWinner (scores : List Int) : Int :=
  if scores.getD 0 0 > scores.getD 1 0 then 0
  else if scores.getD 1 0 > scores.getD 0 0 then 1
  else -1

/-- The broadcast of `_send_end`: an `end` message attempted to both
connections (send failures there are swallowed by `except: pass`, so both
attempts always happen).  Scores are replaced by `[0, 0]` unless the mode
is `'scoring'`; the `mines` field is exactly `self.mines_hit`. -/
def sendEnd (cfg : Cfg) (st : GState) (winner : Int) (reason : String) : List Ev :=
  let scores := if cfg.mode = "scoring" then st.scores else [0, 0]
  [(0, .endMsg winner reason scores st.selected st.minesHit),
   (1, .endMsg winner reason scores st.selected st.minesHit)]

/-- The `turn` message broadcast at the top of each loop iteration
(player, `'time':10`, `server_time`, board view). -/
def turnMsg (st : GState) (now : Nat) : ServerMsg :=
  .turn st.turn 10 now st.selected st.scores

/-- Lines 165-180 of `GameSession.run`: after a recorded selection that
did not end the match, flip `self.turn`, broadcast the `update` message
(no `try` around these sends: a failure is an unhandled exception), and
end with reason `board_full` if 64 cells are now taken.  `pre` is the
trace emitted earlier in the iteration (the `mine_hit` broadcast, when
any). -/
def afterSelect (cfg : Cfg) (st : GState) (pre : List Ev) (inp : TurnInput) : StepRes :=
  let st' : GState := { st with turn := 1 - st.turn }
  let upd : ServerMsg := .update st'.selected st'.scores
  if inp.updFail.1 then .crashed (pre ++ [(0, upd)])
  else if inp.updFail.2 then .crashed (pre ++ [(0, upd), (1, upd)])
  else
    let evs := pre ++ [(0, upd), (1, upd)]
    if 64 ≤ st'.selected.length then
      .ended (evs ++ sendEnd cfg st' (scoreWinner st'.scores) "board_full")
    else
      .cont st' evs

/-- Lines 115-180 of `GameSession.run`: handling of a non-`None` request
`req` from the current player.  A duplicate `select` answers with an
`error` sent through the stale loop variable `sock` (which still holds
`self.socks[1]` from the start-message loop) and continues the outer loop;
a fresh `select` is recorded, mines are processed per mode; any other
message type falls through the `if` chain and the outer loop restarts
with unchanged state. -/
def resolveStep (cfg : Cfg) (st : GState) (m : ClientMsg) (inp : TurnInput) : StepRes :=
  let cur := st.turn
  let other := 1 - cur
  match m with
  | .leave => .ended (sendEnd cfg st (Int.ofNat other) "opponent_quit")
  | .other _ => .cont st []
  | .select r c =>
    if (r, c) ∈ st.selected.map Prod.fst then
      if inp.errFail then .crashed [(1, .error "cell already chosen")]
      else .cont st [(1, .error "cell already chosen")]
    else
      let st1 : GState := { st with selected := st.selected ++ [((r, c), cur)] }
      if (r, c) ∈ cfg.mines then
        let mhEvs : List Ev := [(0, .mineHit r c), (1, .mineHit r c)]
        let st2 : GState :=
          { st1 with minesHit :=
              if (r, c) ∈ st1.minesHit then st1.minesHit else st1.minesHit ++ [(r, c)] }
        let st3 : GState :=
          if cfg.mode = "scoring"
          then { st2 with scores := st2.scores.set cur (st2.scores.getD cur 0 - 1) }
          else st2
        if cfg.mode = "survival" then
          .ended (mhEvs ++ sendEnd cfg st3 (Int.ofNat other) "mine")
        else if st3.minesHit.length = cfg.mines.length then
          .ended (mhEvs ++ sendEnd cfg st3 (scoreWinner st3.scores) "all_mines_hit")
        else
          afterSelect cfg st3 mhEvs inp
      else
        let st2 : GState :=
          if cfg.mode = "scoring"
          then { st1 with scores := st1.scores.set cur (st1.scores.getD cur 0 + 1) }
          else st1
        afterSelect cfg st2 [] inp

/-- One iteration of `while self.running` in `GameSession.run`, starting
at wall-clock time `now`: broadcast the `turn` message to both sockets in
order (the first failing send triggers `_end_due_to_disconnect(i)`, i.e.
an `end` with winner `1 - i`, reason `opponent_quit`); run the 10-second
wait loop; then handle timeout (mode-dependent) or the received request.
Returns the step result and the clock after the iteration. -/
def turnStep (cfg : Cfg) (st : GState) (now : Nat) (inp : TurnInput) : StepRes × Nat :=
  let cur := st.turn
  let other := 1 - cur
  let tEv : Nat → Ev := fun i => (i, turnMsg st now)
  if inp.turnFail.1 then
    (.ended ([tEv 0] ++ sendEnd cfg st 1 "opponent_quit"), now)
  else if inp.turnFail.2 then
    (.ended ([tEv 0, tEv 1] ++ sendEnd cfg st 0 "opponent_quit"), now)
  else
    let tEvs := [tEv 0, tEv 1]
    match waitLoop (now + 10) inp.waitEvents with
    | (.exc, t) => (.crashed tEvs, t)
    | (.leaveCur, t) => (.ended (tEvs ++ sendEnd cfg st (Int.ofNat other) "opponent_quit"), t)
    | (.leaveOther, t) => (.ended (tEvs ++ sendEnd cfg st (Int.ofNat cur) "opponent_quit"), t)
    | (.timeout, t) =>
      if cfg.mode = "survival" then
        (.ended (tEvs ++ sendEnd cfg st (Int.ofNat other) "timeout"), t)
      else
        let st' : GState := { st with turn := other }
        if inp.infoFail.1 then
          (.ended ((tEvs ++ [(0, .info cur)]) ++ sendEnd cfg st' (Int.ofNat other) "opponent_quit"), t)
        else if inp.infoFail.2 then
          (.ended ((tEvs ++ [(0, .info cur), (1, .info cur)]) ++ sendEnd cfg st' (Int.ofNat other) "opponent_quit"), t)
        else
          (.cont st' (tEvs ++ [(0, .info cur), (1, .info cur)]), t)
    | (.req m, t) =>
      match resolveStep cfg st m inp with
      | .cont st' tr => (.cont st' (tEvs ++ tr), t)
      | .ended tr => (.ended (tEvs ++ tr), t)
      | .crashed tr => (.crashed (tEvs ++ tr), t)

/-- Overall fate of a session run: still inside the loop with some state,
ended via `_send_end` (sockets closed), crashed on an unhandled exception,
or aborted during the `start` handshake (`_close_all` without any `end`). -/
inductive Outcome : Type where
  | ongoing (st : GState) : Outcome
  | ended : Outcome
  | crashed : Outcome
  | aborted : Outcome
deriving DecidableEq

/-- Iterate `turnStep` over a list of per-iteration inputs, threading the
clock and concatenating the traces; an `ended` or `crashed` iteration
stops the loop (the code `return`s), and exhausting the inputs leaves the
session `ongoing`. -/
def runTurns (cfg : Cfg) : GState → Nat → List TurnInput → Outcome × List Ev
  | st, _, [] => (.ongoing st, [])
  | st, now, inp :: rest =>
    match turnStep cfg st now inp with
    | (.ended tr, _) => (.ended, tr)
    | (.crashed tr, _) => (.crashed, tr)
    | (.cont st' tr, t') =>
      let res := runTurns cfg st' t' rest
      (res.1, tr ++ res.2)

/-- A full session from `GameSession.run`: the `start` handshake (sent to
connection 0 then 1; the first failure closes both sockets and returns
with no `end`), then the turn loop from `initState` starting at time
`t0`. -/
def sessionRun (cfg : Cfg) (startFail : Bool × Bool) (t0 : Nat)
    (inps : List TurnInput) : Outcome × List Ev :=
  if startFail.1 then (.aborted, [(0, .start 0 cfg.mode)])
  else if startFail.2 then
    (.aborted, [(0, .start 0 cfg.mode), (1, .start 1 cfg.mode)])
  else
    let res := runTurns cfg initState t0 inps
    (res.1, [(0, .start 0 cfg.mode), (1, .start 1 cfg.mode)] ++ res.2)

/-- Recogniser for `end` messages in a trace. -/
def isEnd : ServerMsg → Bool
  | .endMsg _ _ _ _ _ => true
  | _ => false

/-- A trace fragment containing no `end` message. -/
def noEnds (tr : List Ev) : Prop := ∀ e ∈ tr, isEnd e.2 = false

/-- The session-state invariant maintained by the loop: the selection map
is duplicate-free, the hit-mines list is exactly the selected coordinates
that are mines (in selection order), the turn cursor is 0 or 1, and the
score list has length 2. -/
def SessionInv (cfg : Cfg) (st : GState) : Prop :=
  (st.selected.map Prod.fst).Nodup ∧
  st.minesHit = (st.selected.map Prod.fst).filter (fun x => decide (x ∈ cfg.mines)) ∧
  st.turn ≤ 1 ∧
  st.scores.length = 2

end Mines

namespace Mines

/-- The matchmaking structure of `MatchMaker.__init__`: a dict from mode
string to the list of waiting connections, modelled as an association
list; connections are modelled as natural-number identifiers. -/
structure MatchMaker : Type where
  queues : List (String × List Nat)
deriving DecidableEq

/-- The initial queues `{'survival': [], 'scoring': []}`. -/
def initMM : MatchMaker := { queues := [("survival", []), ("scoring", [])] }

/-- Association-list lookup with the `setdefault` view: a missing key
reads as the empty list. -/
def getQL : List (String × List Nat) → String → List Nat
  | [], _ => []
  | (k, v) :: rest, mode => if k = mode then v else getQL rest mode

/-- Association-list update: replace the binding for the key, or append a
new one if absent (dict keys are unique, so replacing the first
occurrence is dict update). -/
def setQL : List (String × List Nat) → String → List Nat → List (String × List Nat)
  | [], mode, q => [(mode, q)]
  | (k, v) :: rest, mode, q =>
    if k = mode then (k, q) :: rest else (k, v) :: setQL rest mode q

/-- Dictionary lookup with the `setdefault` view: a missing key reads as
the empty list. -/
def MatchMaker.getQ (mm : MatchMaker) (mode : String) : List Nat :=
  getQL mm.queues mode

/-- Dictionary update: replace the binding for `mode` or append a new
one, as `setdefault` followed by in-place mutation does. -/
def MatchMaker.setQ (mm : MatchMaker) (mode : String) (q : List Nat) : MatchMaker :=
  { queues := setQL mm.queues mode q }

/-- `MatchMaker.join`: append the connection to the mode's queue
(`setdefault(mode, [])` then `append`); if the queue now holds at least
two entries, pop the two oldest and start a `GameSession` with them.
Returns the new queues and the started session's pair and mode, if any. -/
def MatchMaker.join (mm : MatchMaker) (c : Nat) (mode : String) :
    MatchMaker × Option (Nat × Nat × String) :=
  match mm.getQ mode ++ [c] with
  | a :: b :: rest => (mm.setQ mode rest, some (a, b, mode))
  | q => (mm.setQ mode q, none)

/-- A decoded client hello as `handle_client` inspects it: the `type`
field and the optional `mode` field (restricted to string modes, the case
the queue keys range over). -/
structure ClientHello : Type where
  msgType : String
  mode : Option String
deriving DecidableEq

/-- `handle_client`: a missing or non-`join` first message closes the
connection (no queue change); a `join` enqueues the connection under
`msg.get('mode', 'survival')`. -/
def handle_client (mm : MatchMaker) (conn : Nat) (hello : Option ClientHello) :
    MatchMaker × Option (Nat × Nat × String) :=
  match hello with
  | none => (mm, none)
  | some h =>
    if h.msgType = "join" then mm.join conn (h.mode.getD "survival")
    else (mm, none)

end Mines

namespace Common

/-- A decoded JSON value, the result type of the modelled `json.loads`. -/
inductive Json : Type where
  | null : Json
  | bool (b : Bool) : Json
  | num (n : Int) : Json
  | str (s : String) : Json
  | arr (elems : List Json) : Json
  | obj (fields : List (String × Json)) : Json

/-- JSON insignificant whitespace. -/
def isWs (c : Char) : Bool :=
  c = ' ' || c = '\n' || c = '\t' || c = '\r'

/-- Skip leading whitespace. -/
def skipWs : List Char → List Char
  | [] => []
  | c :: rest => if isWs c then skipWs rest else c :: rest

/-- Parse the remainder of a JSON string literal (after the opening
quote), supporting the escapes used by this protocol's messages. -/
def parseStrBody : List Char → Option (List Char × List Char)
  | [] => none
  | '"' :: rest => some ([], rest)
  | '\\' :: e :: rest =>
    match e with
    | '"' => (parseStrBody rest).map (fun p => ('"' :: p.1, p.2))
    | '\\' => (parseStrBody rest).map (fun p => ('\\' :: p.1, p.2))
    | '/' => (parseStrBody rest).map (fun p => ('/' :: p.1, p.2))
    | 'n' => (parseStrBody rest).map (fun p => ('\n' :: p.1, p.2))
    | 't' => (parseStrBody rest).map (fun p => ('\t' :: p.1, p.2))
    | 'r' => (parseStrBody rest).map (fun p => ('\r' :: p.1, p.2))
    | _ => none
  | '\\' :: [] => none
  | c :: rest => (parseStrBody rest).map (fun p => (c :: p.1, p.2))

/-- Parse a run of decimal digits. -/
def parseDigits : List Char → Option (Nat × List Char)
  | c :: rest =>
    if c.isDigit then
      match parseDigits rest with
      | some (n, r) => some (10 ^ (rest.length - r.length) * (c.toNat - 48) + n, r)
      | none => some (c.toNat - 48, rest)
    else none
  | [] => none

mutual

/-- Parse a JSON value (fuel-indexed recursive descent over the integer /
string / bool / null / array / object fragment of JSON that this
protocol's messages use). -/
def parseVal : Nat → List Char → Option (Json × List Char)
  | 0, _ => none
  | fuel + 1, s =>
    match skipWs s with
    | '{' :: rest => parseObjFields fuel (skipWs rest)
    | '[' :: rest => parseArrElems fuel (skipWs rest)
    | '"' :: rest => (parseStrBody rest).map (fun p => (.str (String.mk p.1), p.2))
    | '-' :: rest => (parseDigits rest).map (fun p => (.num (-(p.1 : Int)), p.2))
    | 't' :: 'r' :: 'u' :: 'e' :: rest => some (.bool true, rest)
    | 'f' :: 'a' :: 'l' :: 's' :: 'e' :: rest => some (.bool false, rest)
    | 'n' :: 'u' :: 'l' :: 'l' :: rest => some (.null, rest)
    | s' => (parseDigits s').map (fun p => (.num (p.1 : Int), p.2))

/-- Parse the fields of a JSON object, positioned after the opening brace
with whitespace skipped. -/
def parseObjFields : Nat → List Char → Option (Json × List Char)
  | 0, _ => none
  | fuel + 1, s =>
    match s with
    | '}' :: rest => some (.obj [], rest)
    | '"' :: rest =>
      match parseStrBody rest with
      | none => none
      | some (key, rest2) =>
        match skipWs rest2 with
        | ':' :: rest3 =>
          match parseVal fuel rest3 with
          | none => none
          | some (v, rest4) =>
            match skipWs rest4 with
            | ',' :: rest5 =>
              match parseObjFields fuel (skipWs rest5) with
              | some (.obj kvs, rest6) => some (.obj ((String.mk key, v) :: kvs), rest6)
              | _ => none
            | '}' :: rest5 => some (.obj [(String.mk key, v)], rest5)
            | _ => none
        | _ => none
    | _ => none

/-- Parse the elements of a JSON array, positioned after the opening
bracket with whitespace skipped. -/
def parseArrElems : Nat → List Char → Option (Json × List Char)
  | 0, _ => none
  | fuel + 1, s =>
    match s with
    | ']' :: rest => some (.arr [], rest)
    | _ =>
      match parseVal fuel s with
      | none => none
      | some (v, rest) =>
        match skipWs rest with
        | ',' :: rest2 =>
          match parseArrElems fuel (skipWs rest2) with
          | some (.arr vs, rest3) => some (.arr (v :: vs), rest3)
          | _ => none
        | ']' :: rest2 => some (.arr [v], rest2)
        | _ => none

end

/-- Models `json.loads`: parse one value and require only whitespace to
follow; any failure stands for the `ValueError` the real parser raises
(the caller in `recv_msg` converts it to `None` via `try`/`except`). -/
def json_loads (s : String) : Option Json :=
  match parseVal (s.length + 1) s.toList with
  | some (v, rest) => if (skipWs rest).isEmpty then some v else none
  | none => none

/-- Whether a byte is a UTF-8 continuation byte (`10xxxxxx`). -/
def isCont (b : Nat) : Bool := 0x80 ≤ b && b < 0xC0

/-- Assemble a code point into a `Char`, rejecting surrogates and
out-of-range values as Python's decoder does. -/
def mkChar (n : Nat) : Option Char :=
  if h : n.isValidChar then some ⟨⟨n, by
    rcases h with h | ⟨_, h⟩
    · exact Nat.lt_trans h (by norm_num)
    · exact Nat.lt_trans h (by norm_num)⟩, by
    rcases h with h | h
    · exact Or.inl (by exact_mod_cast h)
    · exact Or.inr ⟨by exact_mod_cast h.1, by exact_mod_cast h.2⟩⟩
  else none

/-- Fuel-indexed UTF-8 decoding loop over a byte list: models
`bytes.decode('utf-8')`, with `none` standing for the raised
`UnicodeDecodeError`.  Rejects stray or missing continuation bytes,
overlong two-byte forms and invalid code points. -/
def utf8DecodeF : Nat → List Nat → Option (List Char)
  | 0, _ => none
  | _ + 1, [] => some []
  | fuel + 1, b :: rest =>
    if b < 0x80 then
      match mkChar b with
      | some c => (utf8DecodeF fuel rest).map (c :: ·)
      | none => none
    else if b < 0xC2 then none
    else if b < 0xE0 then
      match rest with
      | b2 :: rest2 =>
        if isCont b2 then
          match mkChar ((b - 0xC0) * 0x40 + (b2 - 0x80)) with
          | some c => (utf8DecodeF fuel rest2).map (c :: ·)
          | none => none
        else none
      | [] => none
    else if b < 0xF0 then
      match rest with
      | b2 :: b3 :: rest3 =>
        if isCont b2 && isCont b3 then
          match mkChar ((b - 0xE0) * 0x1000 + (b2 - 0x80) * 0x40 + (b3 - 0x80)) with
          | some c =>
            if (b - 0xE0) * 0x1000 + (b2 - 0x80) * 0x40 + (b3 - 0x80) < 0x800 then none
            else (utf8DecodeF fuel rest3).map (c :: ·)
          | none => none
        else none
      | _ => none
    else if b < 0xF5 then
      match rest with
      | b2 :: b3 :: b4 :: rest4 =>
        if isCont b2 && isCont b3 && isCont b4 then
          match mkChar ((b - 0xF0) * 0x40000 + (b2 - 0x80) * 0x1000 +
              (b3 - 0x80) * 0x40 + (b4 - 0x80)) with
          | some c =>
            if (b - 0xF0) * 0x40000 + (b2 - 0x80) * 0x1000 +
                (b3 - 0x80) * 0x40 + (b4 - 0x80) < 0x10000 then none
            else (utf8DecodeF fuel rest4).map (c :: ·)
          | none => none
        else none
      | _ => none
    else none

/-- Models `bytes.decode('utf-8')` on a full byte list. -/
def utf8Decode (bs : List Nat) : Option (List Char) :=
  utf8DecodeF (bs.length + 1) bs

/-- One outcome of a single `sock.recv(1)` call inside `recv_msg`: a byte,
an empty result (end of stream), a raised `socket.timeout`, or any other
raised exception (e.g. `ConnectionResetError`), which `recv_msg` does not
catch. -/
inductive ReadItem : Type where
  | byte (b : Nat) : ReadItem
  | eof : ReadItem
  | timeoutExc : ReadItem
  | raise : ReadItem
deriving DecidableEq

/-- An exception propagating out of `recv_msg`. -/
inductive PyExc : Type where
  | unicodeDecodeError : PyExc
  | socketError : PyExc
deriving DecidableEq

/-- Intermediate outcome of the byte-reading loop of `recv_msg`. -/
inductive RecvOut : Type where
  | noMsg : RecvOut
  | line (bytes : List Nat) : RecvOut
deriving DecidableEq

/-- The `while True` read loop of `recv_msg`: accumulate bytes until a
newline; an empty `recv` result returns `None` (end of stream), a raised
`socket.timeout` is caught and returns `None`, any other exception
propagates.  An exhausted stream is read as a stream that never delivers
(modelled as no message). -/
def recvLoop : List Nat → List ReadItem → Except PyExc RecvOut
  | _, [] => .ok .noMsg
  | _, .eof :: _ => .ok .noMsg
  | _, .timeoutExc :: _ => .ok .noMsg
  | _, .raise :: _ => .error .socketError
  | buf, .byte b :: rest =>
    if b = 10 then .ok (.line buf) else recvLoop (buf ++ [b]) rest

/-- Models `recv_msg` of `common.py`: read a line, then decode it as
UTF-8 (outside any `try`/`except`: a decode failure raises), then
`json.loads` under `try`/`except Exception`, so a JSON parse failure
yields `None`. -/
def recv_msg (stream : List ReadItem) : Except PyExc (Option Json) :=
  match recvLoop [] stream with
  | .error e => .error e
  | .ok .noMsg => .ok none
  | .ok (.line bytes) =>
    match utf8Decode bytes with
    | none => .error .unicodeDecodeError
    | some chars => .ok (json_loads (String.mk chars))

end Common

namespace Mines

theorem noEnds_nil : noEnds [] := by
  intro e he
  cases he

theorem noEnds_append {t1 t2 : List Ev} (h1 : noEnds t1) (h2 : noEnds t2) :
    noEnds (t1 ++ t2) := by
  intro e he
  rcases List.mem_append.1 he with h | h
  · exact h1 e h
  · exact h2 e h

theorem noEnds_turnPair (st : GState) (now : Nat) :
    noEnds [(0, turnMsg st now), (1, turnMsg st now)] := by
  intro e he
  rcases List.mem_cons.1 he with h | h
  · subst h; rfl
  · rcases List.mem_cons.1 h with h' | h'
    · subst h'; rfl
    · cases h'

theorem noEnds_minePair (r c : Int) :
    noEnds [(0, ServerMsg.mineHit r c), (1, ServerMsg.mineHit r c)] := by
  intro e he
  rcases List.mem_cons.1 he with h | h
  · subst h; rfl
  · rcases List.mem_cons.1 h with h' | h'
    · subst h'; rfl
    · cases h'

theorem noEnds_updPair (sel : List (Coord × Nat)) (sc : List Int) :
    noEnds [(0, ServerMsg.update sel sc), (1, ServerMsg.update sel sc)] := by
  intro e he
  rcases List.mem_cons.1 he with h | h
  · subst h; rfl
  · rcases List.mem_cons.1 h with h' | h'
    · subst h'; rfl
    · cases h'

theorem sendEnd_all_end (cfg : Cfg) (st : GState) (w : Int) (r : String) :
    ∀ e ∈ sendEnd cfg st w r, isEnd e.2 = true := by
  intro e he
  rcases List.mem_cons.1 he with h | h
  · subst h; rfl
  · rcases List.mem_cons.1 h with h' | h'
    · subst h'; rfl
    · cases h'

theorem sendEnd_pair (cfg : Cfg) (st : GState) (w : Int) (r : String) :
    ∃ m, sendEnd cfg st w r = [(0, m), (1, m)] := ⟨_, rfl⟩

theorem sendEnd_payload (cfg : Cfg) (st : GState) (w : Int) (r : String) :
    ∀ e ∈ sendEnd cfg st w r, ∀ w' r' sc sel mi,
      e.2 = ServerMsg.endMsg w' r' sc sel mi →
      w' = w ∧ r' = r ∧ sc = (if cfg.mode = "scoring" then st.scores else [0, 0]) ∧
      sel = st.selected ∧ mi = st.minesHit := by
  intro e he w' r' sc sel mi hmsg
  rcases List.mem_cons.1 he with h | h
  · subst h
    injection hmsg with h1 h2 h3 h4 h5
    exact ⟨h1.symm, h2.symm, h3.symm, h4.symm, h5.symm⟩
  · rcases List.mem_cons.1 h with h' | h'
    · subst h'
      injection hmsg with h1 h2 h3 h4 h5
      exact ⟨h1.symm, h2.symm, h3.symm, h4.symm, h5.symm⟩
    · cases h'

theorem SessionInv.flip {cfg : Cfg} {st : GState} (h : SessionInv cfg st) :
    SessionInv cfg { st with turn := 1 - st.turn } := by
  obtain ⟨h1, h2, h3, h4⟩ := h
  refine ⟨h1, h2, ?_, h4⟩
  show 1 - st.turn ≤ 1
  omega

theorem SessionInv.init (cfg : Cfg) : SessionInv cfg initState := by
  refine ⟨List.nodup_nil, rfl, ?_, rfl⟩
  show (0 : Nat) ≤ 1
  omega

end Mines

namespace Mines

theorem noEnds_single (i : Nat) (m : ServerMsg) (h : isEnd m = false) :
    noEnds [(i, m)] := by
  intro e he
  rcases List.mem_cons.1 he with h' | h'
  · subst h'; exact h
  · cases h'

theorem afterSelect_cases (cfg : Cfg) (st : GState) (pre : List Ev) (inp : TurnInput)
    (hInv : SessionInv cfg st) (hpre : noEnds pre) :
    (∃ st' tr, afterSelect cfg st pre inp = .cont st' tr ∧ SessionInv cfg st' ∧ noEnds tr) ∨
    (∃ pre' st₂ w r, afterSelect cfg st pre inp = .ended (pre' ++ sendEnd cfg st₂ w r) ∧
      noEnds pre' ∧ SessionInv cfg st₂ ∧
      (r = "all_mines_hit" → st₂.minesHit.length = cfg.mines.length)) ∨
    (∃ tr, afterSelect cfg st pre inp = .crashed tr ∧ noEnds tr) := by
  unfold afterSelect
  by_cases h0 : inp.updFail.1 = true
  · right; right
    refine ⟨_, by rw [if_pos h0], noEnds_append hpre (noEnds_single 0 (.update _ _) rfl)⟩
  · rw [if_neg h0]
    by_cases h1 : inp.updFail.2 = true
    · right; right
      refine ⟨_, by rw [if_pos h1], noEnds_append hpre (noEnds_updPair _ _)⟩
    · rw [if_neg h1]
      by_cases hful : 64 ≤ ({ st with turn := 1 - st.turn } : GState).selected.length
      · right; left
        refine ⟨pre ++ [(0, _), (1, _)], { st with turn := 1 - st.turn },
          scoreWinner st.scores, "board_full", by rw [if_pos hful], 
          noEnds_append hpre (noEnds_updPair _ _), SessionInv.flip hInv, ?_⟩
        intro h
        exact absurd h (by decide)
      · left
        refine ⟨{ st with turn := 1 - st.turn }, pre ++ [(0, _), (1, _)],
          by rw [if_neg hful], SessionInv.flip hInv,
          noEnds_append hpre (noEnds_updPair _ _)⟩

end Mines

namespace Mines

theorem SessionInv.extend {cfg : Cfg} {st : GState} {r c : Int} {sc : List Int} {mh : List Coord}
    (hInv : SessionInv cfg st) (hfresh : (r, c) ∉ st.selected.map Prod.fst)
    (hsc : sc.length = 2)
    (hmh : mh = (if (r, c) ∈ cfg.mines then st.minesHit ++ [(r, c)] else st.minesHit)) :
    SessionInv cfg { selected := st.selected ++ [((r, c), st.turn)], minesHit := mh,
                     scores := sc, turn := st.turn } := by
  obtain ⟨h1, h2, h3, h4⟩ := hInv
  refine ⟨?_, ?_, h3, hsc⟩
  · show (List.map Prod.fst (st.selected ++ [((r, c), st.turn)])).Nodup
    rw [List.map_append, List.nodup_append]
    refine ⟨h1, List.nodup_singleton _, ?_⟩
    intro a ha hb
    rcases List.mem_singleton.1 hb with rfl
    exact hfresh ha
  · show mh = (List.map Prod.fst (st.selected ++ [((r, c), st.turn)])).filter
      (fun x => decide (x ∈ cfg.mines))
    rw [List.map_append, List.filter_append, ← h2, hmh]
    by_cases hm : (r, c) ∈ cfg.mines
    · simp [hm]
    · simp [hm]

theorem notMem_minesHit {cfg : Cfg} {st : GState} {r c : Int}
    (hInv : SessionInv cfg st) (hfresh : (r, c) ∉ st.selected.map Prod.fst) :
    (r, c) ∉ st.minesHit := by
  obtain ⟨_, h2, _, _⟩ := hInv
  rw [h2]
  intro hm
  exact hfresh (List.mem_of_mem_filter hm)

theorem resolveStep_select_fresh_mine (cfg : Cfg) (st : GState) (r c : Int) (inp : TurnInput)
    (hdup : (r, c) ∉ st.selected.map Prod.fst) (hmine : (r, c) ∈ cfg.mines)
    (hnotmh : (r, c) ∉ st.minesHit) :
    resolveStep cfg st (.select r c) inp =
      (let st3 : GState := { selected := st.selected ++ [((r, c), st.turn)],
                             minesHit := st.minesHit ++ [(r, c)],
                             scores := if cfg.mode = "scoring"
                                       then st.scores.set st.turn (st.scores.getD st.turn 0 - 1)
                                       else st.scores,
                             turn := st.turn }
       if cfg.mode = "survival" then
         .ended ([(0, .mineHit r c), (1, .mineHit r c)] ++
           sendEnd cfg st3 (Int.ofNat (1 - st.turn)) "mine")
       else if st3.minesHit.length = cfg.mines.length then
         .ended ([(0, .mineHit r c), (1, .mineHit r c)] ++
           sendEnd cfg st3 (scoreWinner st3.scores) "all_mines_hit")
       else afterSelect cfg st3 [(0, .mineHit r c), (1, .mineHit r c)] inp) := by
  simp only [resolveStep, if_neg hdup, if_pos hmine, if_neg hnotmh]
  by_cases hm : cfg.mode = "scoring" <;> simp [hm]

theorem resolveStep_select_fresh_safe (cfg : Cfg) (st : GState) (r c : Int) (inp : TurnInput)
    (hdup : (r, c) ∉ st.selected.map Prod.fst) (hmine : (r, c) ∉ cfg.mines) :
    resolveStep cfg st (.select r c) inp =
      afterSelect cfg { selected := st.selected ++ [((r, c), st.turn)],
                        minesHit := st.minesHit,
                        scores := if cfg.mode = "scoring"
                                  then st.scores.set st.turn (st.scores.getD st.turn 0 + 1)
                                  else st.scores,
                        turn := st.turn } [] inp := by
  simp only [resolveStep, if_neg hdup, if_neg hmine]
  by_cases hm : cfg.mode = "scoring" <;> simp [hm]

end Mines

namespace Mines

theorem resolveStep_cases (cfg : Cfg) (st : GState) (m : ClientMsg) (inp : TurnInput)
    (hInv : SessionInv cfg st) :
    (∃ st' tr, resolveStep cfg st m inp = .cont st' tr ∧ SessionInv cfg st' ∧ noEnds tr) ∨
    (∃ pre st₂ w r, resolveStep cfg st m inp = .ended (pre ++ sendEnd cfg st₂ w r) ∧
      noEnds pre ∧ SessionInv cfg st₂ ∧
      (r = "all_mines_hit" → st₂.minesHit.length = cfg.mines.length)) ∨
    (∃ tr, resolveStep cfg st m inp = .crashed tr ∧ noEnds tr) := by
  cases m with
  | leave =>
    right; left
    exact ⟨[], st, _, "opponent_quit", rfl, noEnds_nil, hInv, fun h => absurd h (by decide)⟩
  | other t =>
    left
    exact ⟨st, [], rfl, hInv, noEnds_nil⟩
  | select r c =>
    by_cases hdup : (r, c) ∈ st.selected.map Prod.fst
    · by_cases herr : inp.errFail = true
      · right; right
        refine ⟨[(1, .error "cell already chosen")], ?_,
          noEnds_single 1 (.error _) rfl⟩
        simp only [resolveStep, if_pos hdup, if_pos herr]
      · left
        refine ⟨st, [(1, .error "cell already chosen")], ?_, hInv,
          noEnds_single 1 (.error _) rfl⟩
        simp only [resolveStep, if_pos hdup, if_neg herr]
    · have hnotmh := notMem_minesHit hInv hdup
      obtain ⟨h1, h2, h3, h4⟩ := hInv
      by_cases hmine : (r, c) ∈ cfg.mines
      · by_cases hsv : cfg.mode = "survival"
        · have hInv3 : SessionInv cfg
              { selected := st.selected ++ [((r, c), st.turn)],
                minesHit := st.minesHit ++ [(r, c)], scores := st.scores, turn := st.turn } :=
            SessionInv.extend ⟨h1, h2, h3, h4⟩ hdup h4 (by rw [if_pos hmine])
          right; left
          refine ⟨[(0, .mineHit r c), (1, .mineHit r c)], _, Int.ofNat (1 - st.turn), "mine",
            ?_, noEnds_minePair r c, hInv3, fun h => absurd h (by decide)⟩
          rw [resolveStep_select_fresh_mine cfg st r c inp hdup hmine hnotmh]
          simp [hsv]
        · have hsc3 : (if cfg.mode = "scoring"
              then st.scores.set st.turn (st.scores.getD st.turn 0 - 1)
              else st.scores).length = 2 := by
            by_cases hm : cfg.mode = "scoring" <;> simp [hm, h4]
          have hInv3 : SessionInv cfg
              { selected := st.selected ++ [((r, c), st.turn)],
                minesHit := st.minesHit ++ [(r, c)],
                scores := if cfg.mode = "scoring"
                          then st.scores.set st.turn (st.scores.getD st.turn 0 - 1)
                          else st.scores,
                turn := st.turn } :=
            SessionInv.extend ⟨h1, h2, h3, h4⟩ hdup hsc3 (by rw [if_pos hmine])
          by_cases hlen : st.minesHit.length + 1 = cfg.mines.length
          · right; left
            refine ⟨[(0, .mineHit r c), (1, .mineHit r c)], _,
              scoreWinner (if cfg.mode = "scoring"
                then st.scores.set st.turn (st.scores.getD st.turn 0 - 1)
                else st.scores), "all_mines_hit",
              ?_, noEnds_minePair r c, hInv3, fun _ => by simp [hlen]⟩
            rw [resolveStep_select_fresh_mine cfg st r c inp hdup hmine hnotmh]
            simp [hsv, hlen]
          · have hres : resolveStep cfg st (.select r c) inp =
                afterSelect cfg
                  { selected := st.selected ++ [((r, c), st.turn)],
                    minesHit := st.minesHit ++ [(r, c)],
                    scores := if cfg.mode = "scoring"
                              then st.scores.set st.turn (st.scores.getD st.turn 0 - 1)
                              else st.scores,
                    turn := st.turn } [(0, .mineHit r c), (1, .mineHit r c)] inp := by
              rw [resolveStep_select_fresh_mine cfg st r c inp hdup hmine hnotmh]
              simp [hsv, hlen]
            have := afterSelect_cases cfg _ [(0, .mineHit r c), (1, .mineHit r c)] inp
              hInv3 (noEnds_minePair r c)
            rw [← hres] at this
            exact this
      · have hsc2 : (if cfg.mode = "scoring"
            then st.scores.set st.turn (st.scores.getD st.turn 0 + 1)
            else st.scores).length = 2 := by
          by_cases hm : cfg.mode = "scoring" <;> simp [hm, h4]
        have hInv2 : SessionInv cfg
            { selected := st.selected ++ [((r, c), st.turn)],
              minesHit := st.minesHit,
              scores := if cfg.mode = "scoring"
                        then st.scores.set st.turn (st.scores.getD st.turn 0 + 1)
                        else st.scores,
              turn := st.turn } :=
          SessionInv.extend ⟨h1, h2, h3, h4⟩ hdup hsc2 (by rw [if_neg hmine])
        have hres := resolveStep_select_fresh_safe cfg st r c inp hdup hmine
        have := afterSelect_cases cfg _ [] inp hInv2 noEnds_nil
        rw [← hres] at this
        exact this

end Mines

namespace Mines

theorem noEnds_infoTriple (st : GState) (now : Nat) (p : Nat) :
    noEnds [(0, turnMsg st now), (1, turnMsg st now), (0, ServerMsg.info p)] := by
  intro e he
  rcases List.mem_cons.1 he with h | h
  · subst h; rfl
  · rcases List.mem_cons.1 h with h' | h'
    · subst h'; rfl
    · rcases List.mem_cons.1 h' with h2 | h2
      · subst h2; rfl
      · cases h2

theorem noEnds_infoQuad (st : GState) (now : Nat) (p : Nat) :
    noEnds [(0, turnMsg st now), (1, turnMsg st now),
      (0, ServerMsg.info p), (1, ServerMsg.info p)] := by
  intro e he
  rcases List.mem_cons.1 he with h | h
  · subst h; rfl
  · rcases List.mem_cons.1 h with h' | h'
    · subst h'; rfl
    · rcases List.mem_cons.1 h' with h2 | h2
      · subst h2; rfl
      · rcases List.mem_cons.1 h2 with h3 | h3
        · subst h3; rfl
        · cases h3

theorem turnStep_cases (cfg : Cfg) (st : GState) (now : Nat) (inp : TurnInput)
    (hInv : SessionInv cfg st) :
    (∃ st' tr t, turnStep cfg st now inp = (.cont st' tr, t) ∧
      SessionInv cfg st' ∧ noEnds tr) ∨
    (∃ pre st₂ w r t, turnStep cfg st now inp = (.ended (pre ++ sendEnd cfg st₂ w r), t) ∧
      noEnds pre ∧ SessionInv cfg st₂ ∧
      (r = "all_mines_hit" → st₂.minesHit.length = cfg.mines.length)) ∨
    (∃ tr t, turnStep cfg st now inp = (.crashed tr, t) ∧ noEnds tr) := by
  by_cases hf0 : inp.turnFail.1 = true
  · right; left
    exact ⟨[(0, turnMsg st now)], st, 1, "opponent_quit", now,
      by simp [turnStep, hf0], noEnds_single 0 (turnMsg st now) rfl, hInv,
      fun h => absurd h (by decide)⟩
  · by_cases hf1 : inp.turnFail.2 = true
    · right; left
      exact ⟨[(0, turnMsg st now), (1, turnMsg st now)], st, 0, "opponent_quit", now,
        by simp [turnStep, hf0, hf1], noEnds_turnPair st now, hInv,
        fun h => absurd h (by decide)⟩
    · rcases hw : waitLoop (now + 10) inp.waitEvents with ⟨wres, t⟩
      cases wres with
      | exc =>
        right; right
        exact ⟨[(0, turnMsg st now), (1, turnMsg st now)], t,
          by simp [turnStep, hf0, hf1, hw], noEnds_turnPair st now⟩
      | leaveCur =>
        right; left
        exact ⟨[(0, turnMsg st now), (1, turnMsg st now)], st,
          Int.ofNat (1 - st.turn), "opponent_quit", t,
          by simp [turnStep, hf0, hf1, hw], noEnds_turnPair st now, hInv,
          fun h => absurd h (by decide)⟩
      | leaveOther =>
        right; left
        exact ⟨[(0, turnMsg st now), (1, turnMsg st now)], st,
          Int.ofNat st.turn, "opponent_quit", t,
          by simp [turnStep, hf0, hf1, hw], noEnds_turnPair st now, hInv,
          fun h => absurd h (by decide)⟩
      | timeout =>
        by_cases hsv : cfg.mode = "survival"
        · right; left
          exact ⟨[(0, turnMsg st now), (1, turnMsg st now)], st,
            Int.ofNat (1 - st.turn), "timeout", t,
            by simp [turnStep, hf0, hf1, hw, hsv], noEnds_turnPair st now, hInv,
            fun h => absurd h (by decide)⟩
        · by_cases hi0 : inp.infoFail.1 = true
          · right; left
            exact ⟨[(0, turnMsg st now), (1, turnMsg st now), (0, .info st.turn)],
              { st with turn := 1 - st.turn }, Int.ofNat (1 - st.turn), "opponent_quit", t,
              by simp [turnStep, hf0, hf1, hw, hsv, hi0], noEnds_infoTriple st now st.turn,
              SessionInv.flip hInv, fun h => absurd h (by decide)⟩
          · by_cases hi1 : inp.infoFail.2 = true
            · right; left
              exact ⟨[(0, turnMsg st now), (1, turnMsg st now),
                  (0, .info st.turn), (1, .info st.turn)],
                { st with turn := 1 - st.turn }, Int.ofNat (1 - st.turn), "opponent_quit", t,
                by simp [turnStep, hf0, hf1, hw, hsv, hi0, hi1],
                noEnds_infoQuad st now st.turn,
                SessionInv.flip hInv, fun h => absurd h (by decide)⟩
            · left
              exact ⟨{ st with turn := 1 - st.turn },
                [(0, turnMsg st now), (1, turnMsg st now),
                  (0, .info st.turn), (1, .info st.turn)], t,
                by simp [turnStep, hf0, hf1, hw, hsv, hi0, hi1],
                SessionInv.flip hInv, noEnds_infoQuad st now st.turn⟩
      | req m =>
        rcases resolveStep_cases cfg st m inp hInv with
          ⟨st', tr, hres, hInv', hne⟩ | ⟨pre, st₂, w, r, hres, hne, hInv₂, himp⟩ |
          ⟨tr, hres, hne⟩
        · left
          exact ⟨st', [(0, turnMsg st now), (1, turnMsg st now)] ++ tr, t,
            by simp [turnStep, hf0, hf1, hw, hres], hInv',
            noEnds_append (noEnds_turnPair st now) hne⟩
        · right; left
          refine ⟨[(0, turnMsg st now), (1, turnMsg st now)] ++ pre, st₂, w, r, t,
            ?_, noEnds_append (noEnds_turnPair st now) hne, hInv₂, himp⟩
          simp [turnStep, hf0, hf1, hw, hres]
        · right; right
          exact ⟨[(0, turnMsg st now), (1, turnMsg st now)] ++ tr, t,
            by simp [turnStep, hf0, hf1, hw, hres],
            noEnds_append (noEnds_turnPair st now) hne⟩

end Mines

namespace Mines

theorem runTurns_shape (cfg : Cfg) (inps : List TurnInput) :
    ∀ st now, SessionInv cfg st →
    (∃ pre st₂ w r,
        (runTurns cfg st now inps).2 = pre ++ sendEnd cfg st₂ w r ∧
        noEnds pre ∧ SessionInv cfg st₂ ∧
        (runTurns cfg st now inps).1 = .ended ∧
        (r = "all_mines_hit" → st₂.minesHit.length = cfg.mines.length)) ∨
    (noEnds (runTurns cfg st now inps).2 ∧
      ((∃ st', (runTurns cfg st now inps).1 = .ongoing st' ∧ SessionInv cfg st') ∨
        (runTurns cfg st now inps).1 = .crashed)) := by
  induction inps with
  | nil =>
    intro st now hInv
    right
    exact ⟨noEnds_nil, .inl ⟨st, rfl, hInv⟩⟩
  | cons inp rest ih =>
    intro st now hInv
    rcases turnStep_cases cfg st now inp hInv with
      ⟨st', tr, t, hstep, hInv', hne⟩ | ⟨pre, st₂, w, r, t, hstep, hne, hInv₂, himp⟩ |
      ⟨tr, t, hstep, hne⟩
    · have hrt : runTurns cfg st now (inp :: rest) =
          ((runTurns cfg st' t rest).1, tr ++ (runTurns cfg st' t rest).2) := by
        simp [runTurns, hstep]
      rcases ih st' t hInv' with ⟨pre, st₂, w, r, h1, h2, h3, h4, h5⟩ | ⟨h1, h2⟩
      · left
        refine ⟨tr ++ pre, st₂, w, r, ?_, noEnds_append hne h2, h3, ?_, h5⟩
        · rw [hrt]
          show tr ++ (runTurns cfg st' t rest).2 = (tr ++ pre) ++ sendEnd cfg st₂ w r
          rw [h1, List.append_assoc]
        · rw [hrt]; exact h4
      · right
        refine ⟨?_, ?_⟩
        · rw [hrt]
          exact noEnds_append hne h1
        · rcases h2 with ⟨st'', ho, hi⟩ | ho
          · exact .inl ⟨st'', by rw [hrt]; exact ho, hi⟩
          · exact .inr (by rw [hrt]; exact ho)
    · left
      exact ⟨pre, st₂, w, r, by simp [runTurns, hstep], hne, hInv₂,
        by simp [runTurns, hstep], himp⟩
    · right
      refine ⟨?_, .inr (by simp [runTurns, hstep])⟩
      have : (runTurns cfg st now (inp :: rest)).2 = tr := by simp [runTurns, hstep]
      rw [this]
      exact hne

theorem noEnds_startPair (cfg : Cfg) :
    noEnds [(0, ServerMsg.start 0 cfg.mode), (1, ServerMsg.start 1 cfg.mode)] := by
  intro e he
  rcases List.mem_cons.1 he with h | h
  · subst h; rfl
  · rcases List.mem_cons.1 h with h' | h'
    · subst h'; rfl
    · cases h'

theorem sessionRun_shape (cfg : Cfg) (startFail : Bool × Bool) (t0 : Nat)
    (inps : List TurnInput) :
    (∃ pre st₂ w r,
        (sessionRun cfg startFail t0 inps).2 = pre ++ sendEnd cfg st₂ w r ∧
        noEnds pre ∧ SessionInv cfg st₂ ∧
        (sessionRun cfg startFail t0 inps).1 = .ended ∧
        (r = "all_mines_hit" → st₂.minesHit.length = cfg.mines.length)) ∨
    (noEnds (sessionRun cfg startFail t0 inps).2 ∧
      ((∃ st', (sessionRun cfg startFail t0 inps).1 = .ongoing st' ∧ SessionInv cfg st') ∨
        (sessionRun cfg startFail t0 inps).1 = .crashed ∨
        (sessionRun cfg startFail t0 inps).1 = .aborted)) := by
  by_cases hs0 : startFail.1 = true
  · right
    refine ⟨?_, .inr (.inr (by simp [sessionRun, hs0]))⟩
    have : (sessionRun cfg startFail t0 inps).2 = [(0, .start 0 cfg.mode)] := by
      simp [sessionRun, hs0]
    rw [this]
    exact noEnds_single 0 (.start 0 cfg.mode) rfl
  · by_cases hs1 : startFail.2 = true
    · right
      refine ⟨?_, .inr (.inr (by simp [sessionRun, hs0, hs1]))⟩
      have : (sessionRun cfg startFail t0 inps).2 =
          [(0, .start 0 cfg.mode), (1, .start 1 cfg.mode)] := by
        simp [sessionRun, hs0, hs1]
      rw [this]
      exact noEnds_startPair cfg
    · have hrun : sessionRun cfg startFail t0 inps =
          ((runTurns cfg initState t0 inps).1,
            [(0, .start 0 cfg.mode), (1, .start 1 cfg.mode)] ++
              (runTurns cfg initState t0 inps).2) := by
        simp [sessionRun, hs0, hs1]
      rcases runTurns_shape cfg inps initState t0 (SessionInv.init cfg) with
        ⟨pre, st₂, w, r, h1, h2, h3, h4, h5⟩ | ⟨h1, h2⟩
      · left
        refine ⟨[(0, .start 0 cfg.mode), (1, .start 1 cfg.mode)] ++ pre, st₂, w, r,
          ?_, noEnds_append (noEnds_startPair cfg) h2, h3, ?_, h5⟩
        · rw [hrun]
          show [(0, ServerMsg.start 0 cfg.mode), (1, ServerMsg.start 1 cfg.mode)] ++
              (runTurns cfg initState t0 inps).2 = _
          rw [h1, List.append_assoc]
        · rw [hrun]; exact h4
      · right
        refine ⟨?_, ?_⟩
        · rw [hrun]
          exact noEnds_append (noEnds_startPair cfg) h1
        · rcases h2 with ⟨st'', ho, hi⟩ | ho
          · exact .inl ⟨st'', by rw [hrun]; exact ho, hi⟩
          · exact .inr (.inl (by rw [hrun]; exact ho))

end Mines

namespace Mines

theorem afterSelect_cont_turn {cfg : Cfg} {stX : GState} {pre : List Ev} {inp : TurnInput}
    {st' : GState} {tr : List Ev}
    (h : afterSelect cfg stX pre inp = .cont st' tr) : st'.turn = 1 - stX.turn := by
  simp only [afterSelect] at h
  split at h
  · cases h
  · split at h
    · cases h
    · split at h
      · cases h
      · injection h with h1 h2
        subst h1
        rfl

theorem resolveStep_select_cont_turn {cfg : Cfg} {st : GState} {r c : Int} {inp : TurnInput}
    {st' : GState} {tr : List Ev}
    (hfresh : (r, c) ∉ st.selected.map Prod.fst)
    (h : resolveStep cfg st (.select r c) inp = .cont st' tr) :
    st'.turn = 1 - st.turn := by
  by_cases hmine : (r, c) ∈ cfg.mines
  · by_cases hsv : cfg.mode = "survival"
    · by_cases hmh : (r, c) ∈ st.minesHit
      · simp only [resolveStep, if_neg hfresh, if_pos hmine, if_pos hmh, if_pos hsv] at h
        cases h
      · simp only [resolveStep, if_neg hfresh, if_pos hmine, if_neg hmh, if_pos hsv] at h
        cases h
    · by_cases hm : cfg.mode = "scoring"
      · by_cases hmh : (r, c) ∈ st.minesHit
        · by_cases hlen : st.minesHit.length = cfg.mines.length
          · simp only [resolveStep, if_neg hfresh, if_pos hmine, if_pos hmh, if_neg hsv,
              if_pos hm, if_pos hlen] at h
            cases h
          · simp only [resolveStep, if_neg hfresh, if_pos hmine, if_pos hmh, if_neg hsv,
              if_pos hm, if_neg hlen] at h
            exact (id (afterSelect_cont_turn h) : _)
        · by_cases hlen : (st.minesHit ++ [(r, c)]).length = cfg.mines.length
          · simp only [resolveStep, if_neg hfresh, if_pos hmine, if_neg hmh, if_neg hsv,
              if_pos hm, if_pos hlen] at h
            cases h
          · simp only [resolveStep, if_neg hfresh, if_pos hmine, if_neg hmh, if_neg hsv,
              if_pos hm, if_neg hlen] at h
            exact (id (afterSelect_cont_turn h) : _)
      · by_cases hmh : (r, c) ∈ st.minesHit
        · by_cases hlen : st.minesHit.length = cfg.mines.length
          · simp only [resolveStep, if_neg hfresh, if_pos hmine, if_pos hmh, if_neg hsv,
              if_neg hm, if_pos hlen] at h
            cases h
          · simp only [resolveStep, if_neg hfresh, if_pos hmine, if_pos hmh, if_neg hsv,
              if_neg hm, if_neg hlen] at h
            exact (id (afterSelect_cont_turn h) : _)
        · by_cases hlen : (st.minesHit ++ [(r, c)]).length = cfg.mines.length
          · simp only [resolveStep, if_neg hfresh, if_pos hmine, if_neg hmh, if_neg hsv,
              if_neg hm, if_pos hlen] at h
            cases h
          · simp only [resolveStep, if_neg hfresh, if_pos hmine, if_neg hmh, if_neg hsv,
              if_neg hm, if_neg hlen] at h
            exact (id (afterSelect_cont_turn h) : _)
  · by_cases hm : cfg.mode = "scoring"
    · simp only [resolveStep, if_neg hfresh, if_neg hmine, if_pos hm] at h
      exact (id (afterSelect_cont_turn h) : _)
    · simp only [resolveStep, if_neg hfresh, if_neg hmine, if_neg hm] at h
      exact (id (afterSelect_cont_turn h) : _)

theorem getQL_setQL_same (l : List (String × List Nat)) (mode : String) (q : List Nat) :
    getQL (setQL l mode q) mode = q := by
  induction l with
  | nil => simp [setQL, getQL]
  | cons p rest ih =>
    obtain ⟨k, v⟩ := p
    by_cases hk : k = mode
    · simp [setQL, getQL, hk]
    · simp [setQL, getQL, hk, ih]

theorem getQL_setQL_other (l : List (String × List Nat)) (mode m' : String) (q : List Nat)
    (h : m' ≠ mode) : getQL (setQL l mode q) m' = getQL l m' := by
  have h' : ¬(mode = m') := fun hh => h hh.symm
  induction l with
  | nil => simp [setQL, getQL, h']
  | cons p rest ih =>
    obtain ⟨k, v⟩ := p
    by_cases hk : k = mode
    · subst hk
      simp [setQL, getQL, h']
    · simp [setQL, getQL, hk, ih]

end Mines

namespace Common

theorem recvLoop_line (bytes : List Nat) (h : ∀ b ∈ bytes, b ≠ 10) :
    ∀ buf rest, recvLoop buf (bytes.map .byte ++ .byte 10 :: rest) =
      .ok (.line (buf ++ bytes)) := by
  induction bytes with
  | nil =>
    intro buf rest
    simp [recvLoop]
  | cons b bs ih =>
    intro buf rest
    have hb : b ≠ 10 := h b (List.mem_cons_self _ _)
    have h' : ∀ x ∈ bs, x ≠ 10 := fun x hx => h x (List.mem_cons_of_mem _ hx)
    show recvLoop buf (.byte b :: (bs.map .byte ++ .byte 10 :: rest)) = _
    rw [show buf ++ b :: bs = (buf ++ [b]) ++ bs from by simp]
    simp only [recvLoop, if_neg hb]
    exact ih h' (buf ++ [b]) rest

end Common

namespace Mines

/-- C2: in `survival` mode, a resolved selection of a not-yet-selected mine
coordinate immediately ends the match: the `mine_hit` event (coordinate
only) is broadcast to both connections, followed by the `end` broadcast
declaring the other player (`1 - turn`) winner with reason `mine`; the
iteration result is `ended`, so `runTurns` resolves no further moves
whatever later inputs would have been. -/
theorem c2_survival_mine (cfg : Cfg) (st : GState) (now : Nat) (inp : TurnInput)
    (r c : Int) (t : Nat)
    (hmode : cfg.mode = "survival")
    (hf0 : inp.turnFail.1 = false) (hf1 : inp.turnFail.2 = false)
    (hwait : waitLoop (now + 10) inp.waitEvents = (.req (.select r c), t))
    (hfresh : (r, c) ∉ st.selected.map Prod.fst)
    (hmine : (r, c) ∈ cfg.mines)
    (hnothit : (r, c) ∉ st.minesHit) :
    turnStep cfg st now inp =
      (.ended ([(0, turnMsg st now), (1, turnMsg st now)] ++
        ([(0, .mineHit r c), (1, .mineHit r c)] ++
          sendEnd cfg
            { selected := st.selected ++ [((r, c), st.turn)],
              minesHit := st.minesHit ++ [(r, c)],
              scores := st.scores, turn := st.turn }
            (Int.ofNat (1 - st.turn)) "mine")), t) ∧
    (∀ rest, runTurns cfg st now (inp :: rest) =
      (.ended, [(0, turnMsg st now), (1, turnMsg st now)] ++
        ([(0, .mineHit r c), (1, .mineHit r c)] ++
          sendEnd cfg
            { selected := st.selected ++ [((r, c), st.turn)],
              minesHit := st.minesHit ++ [(r, c)],
              scores := st.scores, turn := st.turn }
            (Int.ofNat (1 - st.turn)) "mine"))) := by
  have hres := resolveStep_select_fresh_mine cfg st r c inp hfresh hmine hnothit
  have heq : turnStep cfg st now inp =
      (.ended ([(0, turnMsg st now), (1, turnMsg st now)] ++
        ([(0, .mineHit r c), (1, .mineHit r c)] ++
          sendEnd cfg
            { selected := st.selected ++ [((r, c), st.turn)],
              minesHit := st.minesHit ++ [(r, c)],
              scores := st.scores, turn := st.turn }
            (Int.ofNat (1 - st.turn)) "mine")), t) := by
    simp [turnStep, hf0, hf1, hwait, hres, hmode]
  exact ⟨heq, fun rest => by simp [runTurns, heq]⟩

/-- C2 witness: a concrete survival match where player 0 selects the mine
at (3,3) two seconds into the turn. -/
theorem c2_survival_mine_witness :
    turnStep ⟨"survival", [(3, 3)]⟩ initState 0
      ⟨(false, false), [(2, .curRead (.got (.select 3 3)))], false,
        (false, false), (false, false)⟩ =
      (.ended ([(0, turnMsg initState 0), (1, turnMsg initState 0)] ++
        ([(0, .mineHit 3 3), (1, .mineHit 3 3)] ++
          sendEnd ⟨"survival", [(3, 3)]⟩
            { selected := initState.selected ++ [((3, 3), initState.turn)],
              minesHit := initState.minesHit ++ [(3, 3)],
              scores := initState.scores, turn := initState.turn }
            (Int.ofNat (1 - initState.turn)) "mine")), 2) ∧
    (∀ rest, runTurns ⟨"survival", [(3, 3)]⟩ initState 0
      (⟨(false, false), [(2, .curRead (.got (.select 3 3)))], false,
        (false, false), (false, false)⟩ :: rest) =
      (.ended, [(0, turnMsg initState 0), (1, turnMsg initState 0)] ++
        ([(0, .mineHit 3 3), (1, .mineHit 3 3)] ++
          sendEnd ⟨"survival", [(3, 3)]⟩
            { selected := initState.selected ++ [((3, 3), initState.turn)],
              minesHit := initState.minesHit ++ [(3, 3)],
              scores := initState.scores, turn := initState.turn }
            (Int.ofNat (1 - initState.turn)) "mine"))) :=
  c2_survival_mine ⟨"survival", [(3, 3)]⟩ initState 0
    ⟨(false, false), [(2, .curRead (.got (.select 3 3)))], false,
      (false, false), (false, false)⟩ 3 3 2
    rfl rfl rfl rfl (by decide) (by decide) (by decide)

/-- C5 (amended): a send failure during the `turn` broadcast to connection
`i` immediately ends the match with winner `1 - i` and reason
`opponent_quit`; but a receive failure is not handled this way: an
exception raised by a read crashes the session with no `end` event at
all. -/
theorem c5_disconnect (cfg : Cfg) (st : GState) (now : Nat) (inp : TurnInput) :
    (inp.turnFail.1 = true →
      turnStep cfg st now inp =
        (.ended ([(0, turnMsg st now)] ++ sendEnd cfg st 1 "opponent_quit"), now)) ∧
    (inp.turnFail.1 = false → inp.turnFail.2 = true →
      turnStep cfg st now inp =
        (.ended ([(0, turnMsg st now), (1, turnMsg st now)] ++
          sendEnd cfg st 0 "opponent_quit"), now)) ∧
    (∀ t, inp.turnFail.1 = false → inp.turnFail.2 = false →
      waitLoop (now + 10) inp.waitEvents = (.exc, t) →
      turnStep cfg st now inp =
        (.crashed [(0, turnMsg st now), (1, turnMsg st now)], t)) :=
  ⟨fun h => by simp [turnStep, h],
   fun h0 h1 => by simp [turnStep, h0, h1],
   fun t h0 h1 hw => by simp [turnStep, h0, h1, hw]⟩

/-- C5 witness: concrete instances of the three disconnect behaviors. -/
theorem c5_disconnect_witness :
    turnStep ⟨"survival", [(3, 3)]⟩ initState 0
      ⟨(true, false), [], false, (false, false), (false, false)⟩ =
      (.ended ([(0, turnMsg initState 0)] ++
        sendEnd ⟨"survival", [(3, 3)]⟩ initState 1 "opponent_quit"), 0) ∧
    turnStep ⟨"survival", [(3, 3)]⟩ initState 0
      ⟨(false, false), [(1, .curRead .raised)], false, (false, false), (false, false)⟩ =
      (.crashed [(0, turnMsg initState 0), (1, turnMsg initState 0)], 1) :=
  ⟨(c5_disconnect ⟨"survival", [(3, 3)]⟩ initState 0
      ⟨(true, false), [], false, (false, false), (false, false)⟩).1 rfl,
   (c5_disconnect ⟨"survival", [(3, 3)]⟩ initState 0
      ⟨(false, false), [(1, .curRead .raised)], false, (false, false),
        (false, false)⟩).2.2 1 rfl rfl rfl⟩

/-- C5 counterexample: against the claim that every receive failure is
resolved in favor of the remaining player via an `end` event with reason
`opponent_quit`, a raising read (e.g. `ConnectionResetError` propagating
out of `recv_msg`) leaves the session crashed with no `end` event on
either connection. -/
theorem c5_counterexample :
    turnStep ⟨"survival", [(3, 3)]⟩ initState 0
      ⟨(false, false), [(1, .curRead .raised)], false, (false, false), (false, false)⟩ =
      (.crashed [(0, turnMsg initState 0), (1, turnMsg initState 0)], 1) ∧
    List.filter (fun p => isEnd p.2)
      [((0 : Nat), turnMsg initState 0), (1, turnMsg initState 0)] = [] := by
  exact ⟨by decide, by decide⟩

/-- C6 counterexample: in `scoring` mode a mine hit that is not the final
mine does flip the Turn Cursor (the claim says it stays with the player
who hit the mine): player 0 hits mine (0,0) of the two-mine set, and the
resulting state has `turn = 1`. -/
theorem c6_counterexample :
    turnStep ⟨"scoring", [(0, 0), (0, 1)]⟩ initState 0
      ⟨(false, false), [(2, .curRead (.got (.select 0 0)))], false,
        (false, false), (false, false)⟩ =
      (.cont (GState.mk [((0, 0), 0)] [(0, 0)] [-1, 0] 1)
        [(0, turnMsg initState 0), (1, turnMsg initState 0),
         (0, .mineHit 0 0), (1, .mineHit 0 0),
         (0, .update [((0, 0), 0)] [-1, 0]), (1, .update [((0, 0), 0)] [-1, 0])], 2) ∧
    ([(0, 0)] : List Coord) ≠ [(0, 0), (0, 1)] := by
  exact ⟨by decide, by decide⟩

/-- C6 (amended): the Turn Cursor of any reachable session state is 0 or
1, and it flips after every resolved fresh selection whose iteration
continues the loop - including a scoring-mode mine hit that is not the
final mine; on match-ending selections the loop stops instead. -/
theorem c6_turn_cursor :
    (∀ cfg startFail t0 inps st',
      (sessionRun cfg startFail t0 inps).1 = .ongoing st' → st'.turn ≤ 1) ∧
    (∀ cfg st now inp r c t st' tr,
      inp.turnFail.1 = false → inp.turnFail.2 = false →
      waitLoop (now + 10) inp.waitEvents = (.req (.select r c), t) →
      (r, c) ∉ st.selected.map Prod.fst →
      (turnStep cfg st now inp).1 = .cont st' tr →
      st'.turn = 1 - st.turn) := by
  constructor
  · intro cfg startFail t0 inps st' h
    rcases sessionRun_shape cfg startFail t0 inps with
      ⟨pre, st₂, w, r, h1, h2, h3, h4, h5⟩ | ⟨h1, h2⟩
    · rw [h] at h4
      cases h4
    · rcases h2 with ⟨st'', ho, hi⟩ | ho | ho
      · have he := ho.symm.trans h
        injection he with he'
        subst he'
        exact hi.2.2.1
      · rw [h] at ho
        cases ho
      · rw [h] at ho
        cases ho
  · intro cfg st now inp r c t st' tr hf0 hf1 hwait hfresh hcont
    cases hr : resolveStep cfg st (.select r c) inp with
    | cont st₀ tr₀ =>
      have h0 := resolveStep_select_cont_turn hfresh hr
      simp [turnStep, hf0, hf1, hwait, hr] at hcont
      rw [← hcont.1]
      exact h0
    | ended tr₀ => simp [turnStep, hf0, hf1, hwait, hr] at hcont
    | crashed tr₀ => simp [turnStep, hf0, hf1, hwait, hr] at hcont

/-- C6 witness: the turn bound at the initial state of a fresh session
and the flip at a concrete non-final scoring-mode mine hit. -/
theorem c6_turn_cursor_witness :
    initState.turn ≤ 1 ∧
    (GState.mk [((0, 0), 0)] [(0, 0)] [-1, 0] 1).turn = 1 - initState.turn :=
  ⟨c6_turn_cursor.1 ⟨"survival", []⟩ (false, false) 0 [] initState rfl,
   c6_turn_cursor.2 ⟨"scoring", [(0, 0), (0, 1)]⟩ initState 0
     ⟨(false, false), [(2, .curRead (.got (.select 0 0)))], false,
       (false, false), (false, false)⟩ 0 0 2
     (GState.mk [((0, 0), 0)] [(0, 0)] [-1, 0] 1)
     [(0, turnMsg initState 0), (1, turnMsg initState 0),
      (0, .mineHit 0 0), (1, .mineHit 0 0),
      (0, .update [((0, 0), 0)] [-1, 0]), (1, .update [((0, 0), 0)] [-1, 0])]
     rfl rfl rfl (by decide) (by decide)⟩

end Mines

namespace Mines

/-- C4: when the 10-second wait elapses with no resolving input, a
`survival` match ends at once with the non-current player as winner and
reason `timeout`; a `scoring` match never ends with reason `timeout`: with
working connections the Turn Cursor flips, scores are untouched, an `info`
event goes to both connections and the loop repeats, and even when an
`info` send fails the resulting `end` carries reason `opponent_quit`,
never `timeout`. -/
theorem c4_timeout (cfg : Cfg) (st : GState) (now : Nat) (inp : TurnInput) (t : Nat)
    (hf0 : inp.turnFail.1 = false) (hf1 : inp.turnFail.2 = false)
    (hwait : waitLoop (now + 10) inp.waitEvents = (.timeout, t)) :
    (cfg.mode = "survival" →
      turnStep cfg st now inp =
        (.ended ([(0, turnMsg st now), (1, turnMsg st now)] ++
          sendEnd cfg st (Int.ofNat (1 - st.turn)) "timeout"), t)) ∧
    (cfg.mode = "scoring" →
      (inp.infoFail = (false, false) →
        turnStep cfg st now inp =
          (.cont { st with turn := 1 - st.turn }
            [(0, turnMsg st now), (1, turnMsg st now),
             (0, .info st.turn), (1, .info st.turn)], t)) ∧
      (∀ tr t', turnStep cfg st now inp = (.ended tr, t') →
        ∀ p ∈ tr, ∀ w rs sc sel mi, p.2 = ServerMsg.endMsg w rs sc sel mi →
          rs = "opponent_quit")) := by
  constructor
  · intro hsv
    simp [turnStep, hf0, hf1, hwait, hsv]
  · intro hm
    constructor
    · intro hinfo
      have hi0 : inp.infoFail.1 = false := by rw [hinfo]
      have hi1 : inp.infoFail.2 = false := by rw [hinfo]
      simp [turnStep, hf0, hf1, hwait, hm, hi0, hi1]
    · intro tr t' heq p hp w rs sc sel mi hmsg
      by_cases hi0 : inp.infoFail.1 = true
      · have heq2 : turnStep cfg st now inp =
            (.ended ([(0, turnMsg st now), (1, turnMsg st now), (0, .info st.turn)] ++
              sendEnd cfg { st with turn := 1 - st.turn }
                (Int.ofNat (1 - st.turn)) "opponent_quit"), t) := by
          simp [turnStep, hf0, hf1, hwait, hm, hi0]
        have hpair := heq2.symm.trans heq
        injection hpair with hA hB
        injection hA with hA'
        subst hA'
        rcases List.mem_append.1 hp with hmem | hmem
        · have hno := noEnds_infoTriple st now st.turn p hmem
          rw [hmsg] at hno
          cases hno
        · exact (sendEnd_payload cfg _ _ _ p hmem w rs sc sel mi hmsg).2.1
      · by_cases hi1 : inp.infoFail.2 = true
        · have heq2 : turnStep cfg st now inp =
              (.ended ([(0, turnMsg st now), (1, turnMsg st now),
                 (0, .info st.turn), (1, .info st.turn)] ++
                sendEnd cfg { st with turn := 1 - st.turn }
                  (Int.ofNat (1 - st.turn)) "opponent_quit"), t) := by
            simp [turnStep, hf0, hf1, hwait, hm, hi0, hi1]
          have hpair := heq2.symm.trans heq
          injection hpair with hA hB
          injection hA with hA'
          subst hA'
          rcases List.mem_append.1 hp with hmem | hmem
          · have hno := noEnds_infoQuad st now st.turn p hmem
            rw [hmsg] at hno
            cases hno
          · exact (sendEnd_payload cfg _ _ _ p hmem w rs sc sel mi hmsg).2.1
        · have heq2 : turnStep cfg st now inp =
              (.cont { st with turn := 1 - st.turn }
                [(0, turnMsg st now), (1, turnMsg st now),
                 (0, .info st.turn), (1, .info st.turn)], t) := by
            simp [turnStep, hf0, hf1, hwait, hm, hi0, hi1]
          have hpair := heq2.symm.trans heq
          injection hpair with hA hB
          cases hA

/-- C4 witness: a concrete survival timeout ending and a concrete scoring
timeout that merely flips the cursor and informs both players. -/
theorem c4_timeout_witness :
    turnStep ⟨"survival", [(3, 3)]⟩ initState 0
      ⟨(false, false), [], false, (false, false), (false, false)⟩ =
      (.ended ([(0, turnMsg initState 0), (1, turnMsg initState 0)] ++
        sendEnd ⟨"survival", [(3, 3)]⟩ initState (Int.ofNat (1 - initState.turn))
          "timeout"), 10) ∧
    turnStep ⟨"scoring", [(3, 3)]⟩ initState 0
      ⟨(false, false), [], false, (false, false), (false, false)⟩ =
      (.cont { initState with turn := 1 - initState.turn }
        [(0, turnMsg initState 0), (1, turnMsg initState 0),
         (0, .info initState.turn), (1, .info initState.turn)], 10) :=
  ⟨(c4_timeout ⟨"survival", [(3, 3)]⟩ initState 0
      ⟨(false, false), [], false, (false, false), (false, false)⟩ 10
      rfl rfl rfl).1 rfl,
   ((c4_timeout ⟨"scoring", [(3, 3)]⟩ initState 0
      ⟨(false, false), [], false, (false, false), (false, false)⟩ 10
      rfl rfl rfl).2 rfl).1 rfl⟩

/-- C1 counterexample: the out-of-grid coordinate (8,8) is not rejected -
no bounds check exists - and it enters the Selection Map and even earns a
point in scoring mode, with no `error` event sent; yet (8,8) lies outside
the 8x8 grid. -/
theorem c1_counterexample :
    turnStep ⟨"scoring", [(0, 0)]⟩ initState 0
      ⟨(false, false), [(2, .curRead (.got (.select 8 8)))], false,
        (false, false), (false, false)⟩ =
      (.cont (GState.mk [((8, 8), 0)] [] [1, 0] 1)
        [(0, turnMsg initState 0), (1, turnMsg initState 0),
         (0, .update [((8, 8), 0)] [1, 0]), (1, .update [((8, 8), 0)] [1, 0])], 2) ∧
    ¬((8 : Int) < 8) := by
  exact ⟨by decide, by decide⟩

/-- C1 (amended): a `select` of an already-selected coordinate is answered
with an `error` event (sent on connection 1 - the stale `sock` loop
variable - not necessarily to the current player) and changes no state;
out-of-grid coordinates are not rejected.  Every coordinate in the
Selection Map of any reachable state, and in the `selected` field of any
`end` event, is recorded exactly once - but is not necessarily
in-bounds. -/
theorem c1_select_validation :
    (∀ cfg st now inp r c t,
      inp.turnFail.1 = false → inp.turnFail.2 = false →
      waitLoop (now + 10) inp.waitEvents = (.req (.select r c), t) →
      (r, c) ∈ st.selected.map Prod.fst →
      inp.errFail = false →
      turnStep cfg st now inp =
        (.cont st ([(0, turnMsg st now), (1, turnMsg st now)] ++
          [(1, .error "cell already chosen")]), t)) ∧
    (∀ cfg startFail t0 inps st',
      (sessionRun cfg startFail t0 inps).1 = .ongoing st' →
      (st'.selected.map Prod.fst).Nodup) ∧
    (∀ cfg startFail t0 inps, ∀ p ∈ (sessionRun cfg startFail t0 inps).2,
      ∀ w rs sc sel mi, p.2 = ServerMsg.endMsg w rs sc sel mi →
      (sel.map Prod.fst).Nodup) := by
  refine ⟨?_, ?_, ?_⟩
  · intro cfg st now inp r c t hf0 hf1 hwait hdup herr
    simp [turnStep, resolveStep, hf0, hf1, hwait, hdup, herr]
  · intro cfg startFail t0 inps st' h
    rcases sessionRun_shape cfg startFail t0 inps with
      ⟨pre, st₂, w, r, h1, h2, h3, h4, h5⟩ | ⟨h1, h2⟩
    · rw [h] at h4
      cases h4
    · rcases h2 with ⟨st'', ho, hi⟩ | ho | ho
      · have he := ho.symm.trans h
        injection he with he'
        subst he'
        exact hi.1
      · rw [h] at ho
        cases ho
      · rw [h] at ho
        cases ho
  · intro cfg startFail t0 inps p hp w rs sc sel mi hmsg
    rcases sessionRun_shape cfg startFail t0 inps with
      ⟨pre, st₂, w', r, h1, h2, h3, h4, h5⟩ | ⟨h1, h2⟩
    · rw [h1] at hp
      rcases List.mem_append.1 hp with hmem | hmem
      · have hno := h2 p hmem
        rw [hmsg] at hno
        cases hno
      · have hpl := (sendEnd_payload cfg st₂ w' r p hmem w rs sc sel mi hmsg).2.2.2.1
        rw [hpl]
        exact h3.1
    · have hno := h1 p hp
      rw [hmsg] at hno
      cases hno

/-- C1 witness: the duplicate-selection error at a concrete state where
player 1 re-selects (0,0), the selection-map uniqueness at a fresh
session, and uniqueness inside a concrete `end` event. -/
theorem c1_select_validation_witness :
    turnStep ⟨"scoring", [(3, 3)]⟩ (GState.mk [((0, 0), 0)] [] [0, 0] 1) 3
      ⟨(false, false), [(9, .curRead (.got (.select 0 0)))], false,
        (false, false), (false, false)⟩ =
      (.cont (GState.mk [((0, 0), 0)] [] [0, 0] 1)
        ([(0, turnMsg (GState.mk [((0, 0), 0)] [] [0, 0] 1) 3),
          (1, turnMsg (GState.mk [((0, 0), 0)] [] [0, 0] 1) 3)] ++
          [(1, .error "cell already chosen")]), 9) ∧
    ((GState.mk [] [] [0, 0] 0).selected.map Prod.fst).Nodup :=
  ⟨c1_select_validation.1 ⟨"scoring", [(3, 3)]⟩ (GState.mk [((0, 0), 0)] [] [0, 0] 1) 3
      ⟨(false, false), [(9, .curRead (.got (.select 0 0)))], false,
        (false, false), (false, false)⟩ 0 0 9 rfl rfl rfl (by decide) rfl,
   c1_select_validation.2.1 ⟨"survival", []⟩ (false, false) 0 [] initState rfl⟩

/-- C8 counterexample: the 10-second deadline is reset by a protocol
error.  Survival match, mine at (7,7): player 0 selects (0,0) at t=3;
player 1 re-selects (0,0) at t=9 (protocol error answered with `error`);
the loop restarts, broadcasting a fresh `turn` event at server time 9 with
a full `time = 10` window, and player 1's select of (1,1) at absolute time
16 - past the original deadline 3 + 10 = 13 of the turn in which the error
occurred - is resolved normally instead of timing out; no `end` event is
ever emitted. -/
theorem c8_counterexample :
    sessionRun ⟨"survival", [(7, 7)]⟩ (false, false) 0
      [⟨(false, false), [(3, .curRead (.got (.select 0 0)))], false,
         (false, false), (false, false)⟩,
       ⟨(false, false), [(9, .curRead (.got (.select 0 0)))], false,
         (false, false), (false, false)⟩,
       ⟨(false, false), [(16, .curRead (.got (.select 1 1)))], false,
         (false, false), (false, false)⟩] =
      (.ongoing (GState.mk [((0, 0), 0), ((1, 1), 1)] [] [0, 0] 0),
       [(0, .start 0 "survival"), (1, .start 1 "survival"),
        (0, .turn 0 10 0 [] [0, 0]), (1, .turn 0 10 0 [] [0, 0]),
        (0, .update [((0, 0), 0)] [0, 0]), (1, .update [((0, 0), 0)] [0, 0]),
        (0, .turn 1 10 3 [((0, 0), 0)] [0, 0]), (1, .turn 1 10 3 [((0, 0), 0)] [0, 0]),
        (1, .error "cell already chosen"),
        (0, .turn 1 10 9 [((0, 0), 0)] [0, 0]), (1, .turn 1 10 9 [((0, 0), 0)] [0, 0]),
        (0, .update [((0, 0), 0), ((1, 1), 1)] [0, 0]),
        (1, .update [((0, 0), 0), ((1, 1), 1)] [0, 0])]) ∧
    List.filter (fun p => isEnd p.2)
      [((0 : Nat), ServerMsg.start 0 "survival"), (1, .start 1 "survival"),
       (0, .turn 0 10 0 [] [0, 0]), (1, .turn 0 10 0 [] [0, 0]),
       (0, .update [((0, 0), 0)] [0, 0]), (1, .update [((0, 0), 0)] [0, 0]),
       (0, .turn 1 10 3 [((0, 0), 0)] [0, 0]), (1, .turn 1 10 3 [((0, 0), 0)] [0, 0]),
       (1, .error "cell already chosen"),
       (0, .turn 1 10 9 [((0, 0), 0)] [0, 0]), (1, .turn 1 10 9 [((0, 0), 0)] [0, 0]),
       (0, .update [((0, 0), 0), ((1, 1), 1)] [0, 0]),
       (1, .update [((0, 0), 0), ((1, 1), 1)] [0, 0])] = [] := by
  exact ⟨by decide, by decide⟩

/-- C8 (amended): a protocol error (duplicate selection) is answered with
an `error` event and the session continues, but the turn's deadline IS
reset: control returns to the top of the turn loop with unchanged state,
and the continuation is a fresh iteration that re-broadcasts `turn` and
waits until 10 seconds after the clock at which the error was handled,
not until the original turn's deadline. -/
theorem c8_error_resets_window (cfg : Cfg) (st : GState) (now : Nat) (inp : TurnInput)
    (r c : Int) (t : Nat) (rest : List TurnInput)
    (hf0 : inp.turnFail.1 = false) (hf1 : inp.turnFail.2 = false)
    (hwait : waitLoop (now + 10) inp.waitEvents = (.req (.select r c), t))
    (hdup : (r, c) ∈ st.selected.map Prod.fst)
    (herr : inp.errFail = false) :
    turnStep cfg st now inp =
      (.cont st ([(0, turnMsg st now), (1, turnMsg st now)] ++
        [(1, .error "cell already chosen")]), t) ∧
    runTurns cfg st now (inp :: rest) =
      ((runTurns cfg st t rest).1,
        ([(0, turnMsg st now), (1, turnMsg st now)] ++
          [(1, .error "cell already chosen")]) ++ (runTurns cfg st t rest).2) := by
  have heq : turnStep cfg st now inp =
      (.cont st ([(0, turnMsg st now), (1, turnMsg st now)] ++
        [(1, .error "cell already chosen")]), t) := by
    simp [turnStep, resolveStep, hf0, hf1, hwait, hdup, herr]
  exact ⟨heq, by simp [runTurns, heq]⟩

/-- C8 witness: the amended behavior at a concrete duplicate selection. -/
theorem c8_error_resets_window_witness :
    turnStep ⟨"survival", [(7, 7)]⟩ (GState.mk [((0, 0), 0)] [] [0, 0] 1) 3
      ⟨(false, false), [(9, .curRead (.got (.select 0 0)))], false,
        (false, false), (false, false)⟩ =
      (.cont (GState.mk [((0, 0), 0)] [] [0, 0] 1)
        ([(0, turnMsg (GState.mk [((0, 0), 0)] [] [0, 0] 1) 3),
          (1, turnMsg (GState.mk [((0, 0), 0)] [] [0, 0] 1) 3)] ++
          [(1, .error "cell already chosen")]), 9) ∧
    runTurns ⟨"survival", [(7, 7)]⟩ (GState.mk [((0, 0), 0)] [] [0, 0] 1) 3
      [⟨(false, false), [(9, .curRead (.got (.select 0 0)))], false,
         (false, false), (false, false)⟩] =
      ((runTurns ⟨"survival", [(7, 7)]⟩ (GState.mk [((0, 0), 0)] [] [0, 0] 1) 9 []).1,
        ([(0, turnMsg (GState.mk [((0, 0), 0)] [] [0, 0] 1) 3),
          (1, turnMsg (GState.mk [((0, 0), 0)] [] [0, 0] 1) 3)] ++
          [(1, .error "cell already chosen")]) ++
          (runTurns ⟨"survival", [(7, 7)]⟩ (GState.mk [((0, 0), 0)] [] [0, 0] 1) 9 []).2) :=
  c8_error_resets_window ⟨"survival", [(7, 7)]⟩ (GState.mk [((0, 0), 0)] [] [0, 0] 1) 3
    ⟨(false, false), [(9, .curRead (.got (.select 0 0)))], false,
      (false, false), (false, false)⟩ 0 0 9 []
    rfl rfl rfl (by decide) rfl

end Mines

namespace Mines

/-- C3: in `scoring` mode a resolved fresh mine selection decrements the
selecting player's score by 1; if Hit-Mines then equals the full Mine Set
the match ends with reason `all_mines_hit` and winner `scoreWinner`
(strictly higher score, or the tie sentinel -1); otherwise the loop
continues with the decremented score.  Globally, every `end` event whose
reason is `all_mines_hit`, in any session run, carries a hit-mines list
whose size equals the Mine Set's size. -/
theorem c3_scoring_mine :
    (∀ cfg st now inp r c t,
      cfg.mode = "scoring" →
      inp.turnFail.1 = false → inp.turnFail.2 = false →
      waitLoop (now + 10) inp.waitEvents = (.req (.select r c), t) →
      (r, c) ∉ st.selected.map Prod.fst →
      (r, c) ∈ cfg.mines →
      (r, c) ∉ st.minesHit →
      (st.minesHit.length + 1 = cfg.mines.length →
        turnStep cfg st now inp =
          (.ended ([(0, turnMsg st now), (1, turnMsg st now)] ++
            ([(0, .mineHit r c), (1, .mineHit r c)] ++
              sendEnd cfg
                (GState.mk (st.selected ++ [((r, c), st.turn)])
                  (st.minesHit ++ [(r, c)])
                  (st.scores.set st.turn (st.scores.getD st.turn 0 - 1)) st.turn)
                (scoreWinner (st.scores.set st.turn (st.scores.getD st.turn 0 - 1)))
                "all_mines_hit")), t)) ∧
      (st.minesHit.length + 1 ≠ cfg.mines.length →
        inp.updFail = (false, false) →
        st.selected.length + 1 < 64 →
        turnStep cfg st now inp =
          (.cont
            (GState.mk (st.selected ++ [((r, c), st.turn)])
              (st.minesHit ++ [(r, c)])
              (st.scores.set st.turn (st.scores.getD st.turn 0 - 1)) (1 - st.turn))
            ([(0, turnMsg st now), (1, turnMsg st now)] ++
              ([(0, .mineHit r c), (1, .mineHit r c)] ++
                [(0, .update (st.selected ++ [((r, c), st.turn)])
                    (st.scores.set st.turn (st.scores.getD st.turn 0 - 1))),
                 (1, .update (st.selected ++ [((r, c), st.turn)])
                    (st.scores.set st.turn (st.scores.getD st.turn 0 - 1)))])), t))) ∧
    (∀ cfg startFail t0 inps, ∀ p ∈ (sessionRun cfg startFail t0 inps).2,
      ∀ w sc sel mi, p.2 = ServerMsg.endMsg w "all_mines_hit" sc sel mi →
      mi.length = cfg.mines.length) := by
  refine ⟨?_, ?_⟩
  · intro cfg st now inp r c t hm hf0 hf1 hwait hfresh hmine hnothit
    have hres := resolveStep_select_fresh_mine cfg st r c inp hfresh hmine hnothit
    have hsv : ¬(cfg.mode = "survival") := by rw [hm]; decide
    constructor
    · intro hfin
      have hlen : (st.minesHit ++ [(r, c)]).length = cfg.mines.length := by
        simp [hfin]
      simp [turnStep, hf0, hf1, hwait, hres, hm, hsv, hlen]
    · intro hnf hupd h64
      have hu0 : inp.updFail.1 = false := by rw [hupd]
      have hu1 : inp.updFail.2 = false := by rw [hupd]
      have hb : ¬(64 ≤ st.selected.length + 1) := by omega
      simp [turnStep, afterSelect, hf0, hf1, hwait, hres, hm, hsv, hnf, hu0, hu1, hb]
  · intro cfg startFail t0 inps p hp w sc sel mi hmsg
    rcases sessionRun_shape cfg startFail t0 inps with
      ⟨pre, st₂, w', r, h1, h2, h3, h4, h5⟩ | ⟨h1, h2⟩
    · rw [h1] at hp
      rcases List.mem_append.1 hp with hmem | hmem
      · have hno := h2 p hmem
        rw [hmsg] at hno
        cases hno
      · have hpl := sendEnd_payload cfg st₂ w' r p hmem w "all_mines_hit" sc sel mi hmsg
        have hr : r = "all_mines_hit" := hpl.2.1.symm
        have hl := h5 hr
        rw [hpl.2.2.2.2]
        exact hl
    · have hno := h1 p hp
      rw [hmsg] at hno
      cases hno

/-- C3 witness: the two-mine scoring example - player 0 hits (0,0)
(score -1, not final, loop continues), then at a state where one mine is
already hit, player 1 hits (0,1), the final mine, ending the match
`all_mines_hit` with the tie sentinel. -/
theorem c3_scoring_mine_witness :
    turnStep ⟨"scoring", [(0, 0), (0, 1)]⟩
      (GState.mk [((0, 0), 0)] [(0, 0)] [-1, 0] 1) 3
      ⟨(false, false), [(5, .curRead (.got (.select 0 1)))], false,
        (false, false), (false, false)⟩ =
      (.ended ([(0, turnMsg (GState.mk [((0, 0), 0)] [(0, 0)] [-1, 0] 1) 3),
          (1, turnMsg (GState.mk [((0, 0), 0)] [(0, 0)] [-1, 0] 1) 3)] ++
        ([(0, .mineHit 0 1), (1, .mineHit 0 1)] ++
          sendEnd ⟨"scoring", [(0, 0), (0, 1)]⟩
            (GState.mk [((0, 0), 0), ((0, 1), 1)] [(0, 0), (0, 1)] [-1, -1] 1)
            (scoreWinner [-1, -1]) "all_mines_hit")), 5) ∧
    turnStep ⟨"scoring", [(0, 0), (0, 1)]⟩ initState 0
      ⟨(false, false), [(2, .curRead (.got (.select 0 0)))], false,
        (false, false), (false, false)⟩ =
      (.cont (GState.mk [((0, 0), 0)] [(0, 0)] [-1, 0] 1)
        ([(0, turnMsg initState 0), (1, turnMsg initState 0)] ++
          ([(0, .mineHit 0 0), (1, .mineHit 0 0)] ++
            [(0, .update [((0, 0), 0)] [-1, 0]),
             (1, .update [((0, 0), 0)] [-1, 0])])), 2) := by
  constructor
  · have h := ((c3_scoring_mine.1 ⟨"scoring", [(0, 0), (0, 1)]⟩
      (GState.mk [((0, 0), 0)] [(0, 0)] [-1, 0] 1) 3
      ⟨(false, false), [(5, .curRead (.got (.select 0 1)))], false,
        (false, false), (false, false)⟩ 0 1 5
      rfl rfl rfl rfl (by decide) (by decide) (by decide)).1 (by decide))
    exact h
  · have h := ((c3_scoring_mine.1 ⟨"scoring", [(0, 0), (0, 1)]⟩ initState 0
      ⟨(false, false), [(2, .curRead (.got (.select 0 0)))], false,
        (false, false), (false, false)⟩ 0 0 2
      rfl rfl rfl rfl (by decide) (by decide) (by decide)).2 (by decide) rfl (by decide))
    exact h

/-- C7: in every session run at most one `end` broadcast occurs - the
trace splits into an end-free prefix followed by either nothing or the
single two-recipient `end` broadcast, after which the outcome is the
closed `ended` state; and every `end` event carries scores `[0, 0]` when
the mode is `survival` and exactly the hit mines (the selected
coordinates that are mines) as its `mines` list - never an unhit mine. -/
theorem c7_single_end (cfg : Cfg) (startFail : Bool × Bool) (t0 : Nat)
    (inps : List TurnInput) :
    ∃ pre ends,
      (sessionRun cfg startFail t0 inps).2 = pre ++ ends ∧
      (∀ e ∈ pre, isEnd e.2 = false) ∧
      (ends = [] ∨ ∃ m, ends = [(0, m), (1, m)] ∧ isEnd m = true) ∧
      (ends ≠ [] → (sessionRun cfg startFail t0 inps).1 = .ended) ∧
      (∀ p ∈ (sessionRun cfg startFail t0 inps).2, ∀ w r sc sel mi,
        p.2 = ServerMsg.endMsg w r sc sel mi →
        (cfg.mode = "survival" → sc = [0, 0]) ∧
        mi = (sel.map Prod.fst).filter (fun x => decide (x ∈ cfg.mines))) := by
  rcases sessionRun_shape cfg startFail t0 inps with
    ⟨pre, st₂, w, r, h1, h2, h3, h4, h5⟩ | ⟨h1, h2⟩
  · refine ⟨pre, sendEnd cfg st₂ w r, h1, h2, ?_, fun _ => h4, ?_⟩
    · right
      obtain ⟨m, hm⟩ := sendEnd_pair cfg st₂ w r
      have hmem : ((0 : Nat), m) ∈ sendEnd cfg st₂ w r := by
        rw [hm]
        exact List.mem_cons_self _ _
      exact ⟨m, hm, sendEnd_all_end cfg st₂ w r (0, m) hmem⟩
    · intro p hp w' r' sc sel mi hmsg
      rw [h1] at hp
      rcases List.mem_append.1 hp with hmem | hmem
      · have hno := h2 p hmem
        rw [hmsg] at hno
        cases hno
      · have hpl := sendEnd_payload cfg st₂ w r p hmem w' r' sc sel mi hmsg
        refine ⟨?_, ?_⟩
        · intro hsv
          rw [hpl.2.2.1, hsv]
          simp
        · rw [hpl.2.2.2.2, hpl.2.2.2.1]
          exact h3.2.1
  · refine ⟨(sessionRun cfg startFail t0 inps).2, [], (List.append_nil _).symm, h1,
      .inl rfl, fun h => absurd rfl h, ?_⟩
    intro p hp w r sc sel mi hmsg
    have hno := h1 p hp
    rw [hmsg] at hno
    cases hno

/-- C7 witness: the decomposition at a concrete empty-input session. -/
theorem c7_single_end_witness :
    ∃ pre ends,
      (sessionRun ⟨"survival", [(3, 3)]⟩ (false, false) 0 []).2 = pre ++ ends ∧
      (∀ e ∈ pre, isEnd e.2 = false) ∧
      (ends = [] ∨ ∃ m, ends = [(0, m), (1, m)] ∧ isEnd m = true) ∧
      (ends ≠ [] → (sessionRun ⟨"survival", [(3, 3)]⟩ (false, false) 0 []).1 = .ended) ∧
      (∀ p ∈ (sessionRun ⟨"survival", [(3, 3)]⟩ (false, false) 0 []).2, ∀ w r sc sel mi,
        p.2 = ServerMsg.endMsg w r sc sel mi →
        ((⟨"survival", [(3, 3)]⟩ : Cfg).mode = "survival" → sc = [0, 0]) ∧
        mi = (sel.map Prod.fst).filter
          (fun x => decide (x ∈ (⟨"survival", [(3, 3)]⟩ : Cfg).mines))) :=
  c7_single_end ⟨"survival", [(3, 3)]⟩ (false, false) 0 []

/-- C9: every mode string - known or unknown - gets its own FIFO queue:
with an empty queue for `mode`, the first join waits and the second join
pairs the two connections in order into a session tagged with that mode;
a join leaves every other mode's queue untouched; and `handle_client`
treats a `join` without a mode field as mode `survival`. -/
theorem c9_matchmaking (mm : MatchMaker) (a b conn : Nat) (mode : String)
    (h : mm.getQ mode = []) :
    (mm.join a mode).2 = none ∧
    (mm.join a mode).1.getQ mode = [a] ∧
    ((mm.join a mode).1.join b mode).2 = some (a, b, mode) ∧
    (∀ m', m' ≠ mode → (mm.join a mode).1.getQ m' = mm.getQ m') ∧
    handle_client mm conn (some ⟨"join", none⟩) = mm.join conn "survival" := by
  have hj : mm.join a mode = (mm.setQ mode [a], none) := by
    simp [MatchMaker.join, h]
  have hq : (mm.setQ mode [a]).getQ mode = [a] :=
    getQL_setQL_same mm.queues mode [a]
  refine ⟨by rw [hj], by rw [hj]; exact hq, ?_, ?_, ?_⟩
  · have hj2 : (mm.setQ mode [a]).join b mode =
        ((mm.setQ mode [a]).setQ mode [], some (a, b, mode)) := by
      simp [MatchMaker.join, hq]
    rw [hj]
    show ((mm.setQ mode [a]).join b mode).2 = some (a, b, mode)
    rw [hj2]
  · intro m' hm'
    rw [hj]
    exact getQL_setQL_other mm.queues mode m' [a] hm'
  · simp [handle_client]

/-- C9 witness: two connections joining with the unknown mode string
`foo` are paired together into a `foo` session, the `survival` and
`scoring` queues are untouched, and a mode-less join goes to
`survival`. -/
theorem c9_matchmaking_witness :
    (initMM.join 5 "foo").2 = none ∧
    (initMM.join 5 "foo").1.getQ "foo" = [5] ∧
    ((initMM.join 5 "foo").1.join 7 "foo").2 = some (5, 7, "foo") ∧
    (∀ m', m' ≠ "foo" → (initMM.join 5 "foo").1.getQ m' = initMM.getQ m') ∧
    handle_client initMM 4 (some ⟨"join", none⟩) = initMM.join 4 "survival" :=
  c9_matchmaking initMM 5 7 4 "foo" rfl

end Mines

namespace Common

/-- C10 counterexample: a received line consisting of the single byte
0xFF is not valid JSON, yet `recv_msg` raises (the UTF-8 decode happens
outside the `try`/`except` block) instead of returning `None`. -/
theorem c10_counterexample :
    recv_msg [.byte 255, .byte 10] = .error .unicodeDecodeError := rfl

/-- C10 (amended): `recv_msg` returns `None` instead of raising on
end-of-stream, on read timeout, and on every received line that decodes
as UTF-8 but is not valid JSON; a line that is not valid UTF-8 instead
raises a decode error. -/
theorem c10_recv_total :
    (∀ rest, recv_msg (.eof :: rest) = .ok none) ∧
    (∀ rest, recv_msg (.timeoutExc :: rest) = .ok none) ∧
    (∀ bytes rest cs, (∀ b ∈ bytes, b ≠ 10) →
      utf8Decode bytes = some cs →
      json_loads (String.mk cs) = none →
      recv_msg (bytes.map .byte ++ .byte 10 :: rest) = .ok none) := by
  refine ⟨fun rest => rfl, fun rest => rfl, ?_⟩
  intro bytes rest cs hnb hdec hjson
  unfold recv_msg
  rw [recvLoop_line bytes hnb [] rest]
  simp [hdec, hjson]

/-- C10 witness: end-of-stream, timeout, and the non-JSON ASCII line
`ab` all yield `None`. -/
theorem c10_recv_total_witness :
    recv_msg [.eof] = .ok none ∧
    recv_msg [.timeoutExc] = .ok none ∧
    recv_msg [.byte 97, .byte 98, .byte 10] = .ok none :=
  ⟨c10_recv_total.1 [], c10_recv_total.2.1 [],
   c10_recv_total.2.2 [97, 98] [] ['a', 'b'] (by decide) rfl rfl⟩

end Common
